import Mathlib

/-!
Verification of the mini-framework core (virtual-element model, renderer,
reactive store, hash router) against its natural-language specification.

The JavaScript sources are shallowly embedded: JavaScript values become the
inductive `JSVal`, the DOM becomes an explicit `RenderSt` record threaded
through the renderer, exceptions become `Except`, and each source function
(`createVirtualElement`, `elementToHtmlElement`, `updateDom`,
`State.setState`, `addRoute`, `executeRoute`) is translated line by line.
-/

/-- A JavaScript runtime value, as far as the framework inspects one:
strings, numbers (modelled as integers — the framework never does float
arithmetic on inspected values), booleans, `null`, `undefined`, opaque
functions (identified by a tag), arrays, plain objects (ordered field
lists, as JS objects are), and live DOM nodes (identified by a node id). -/
inductive JSVal : Type where
  | vstr (s : String)
  | vnum (n : Int)
  | vbool (b : Bool)
  | vnull
  | vundef
  | vfun (tag : Nat)
  | varr (elems : List JSVal)
  | vobj (fields : List (String × JSVal))
  | vnode (id : Nat)

namespace JSVal

/-- The JavaScript `typeof` operator (note `typeof null = "object"`). -/
def typeof : JSVal → String
  | .vstr _ => "string"
  | .vnum _ => "number"
  | .vbool _ => "boolean"
  | .vnull => "object"
  | .vundef => "undefined"
  | .vfun _ => "function"
  | .varr _ => "object"
  | .vobj _ => "object"
  | .vnode _ => "object"

/-- JavaScript truthiness. -/
def truthy : JSVal → Bool
  | .vstr s => !s.data.isEmpty
  | .vnum n => n != 0
  | .vbool b => b
  | .vnull => false
  | .vundef => false
  | .vfun _ => true
  | .varr _ => true
  | .vobj _ => true
  | .vnode _ => true

/-- `Array.isArray`. -/
def isArr : JSVal → Bool
  | .varr _ => true
  | _ => false

/-- `v === null`. -/
def isNull : JSVal → Bool
  | .vnull => true
  | _ => false

/-- `v === undefined`. -/
def isUndef : JSVal → Bool
  | .vundef => true
  | _ => false

/-- The JavaScript `x instanceof Object` test: true for arrays, plain
objects, functions and DOM nodes, false for primitives, `null`, `undefined`. -/
def instOfObject : JSVal → Bool
  | .vfun _ => true
  | .varr _ => true
  | .vobj _ => true
  | .vnode _ => true
  | _ => false

/-- The SameValueZero equality used by `Map` keys: value equality on
primitives, reference identity on functions and DOM nodes (modelled by
their tags), and reference identity on arrays/objects — two array or
object *literals* in this model are distinct references, so they compare
unequal. -/
def sameValueZero : JSVal → JSVal → Bool
  | .vstr a, .vstr b => a == b
  | .vnum a, .vnum b => a == b
  | .vbool a, .vbool b => a == b
  | .vnull, .vnull => true
  | .vundef, .vundef => true
  | .vfun a, .vfun b => a == b
  | .vnode a, .vnode b => a == b
  | _, _ => false

/-- The underlying list of an array value (callers guard with `isArr`). -/
def asArr : JSVal → List JSVal
  | .varr xs => xs
  | _ => []

/-- The underlying string of a string value (callers guard with `typeof`). -/
def asStr : JSVal → String
  | .vstr s => s
  | _ => ""

end JSVal

/-! ### Data-level string helpers

`String.startsWith`, `String.drop` and `String.toLower` from the standard
library are implemented against opaque byte positions; these equivalents
work on the character list directly so that concrete runs of the model
reduce inside the kernel. All strings the framework manipulates are
ASCII, where JavaScript's UTF-16 index semantics and the character-list
semantics agree. -/

/-- `s.startsWith pat` on character lists. -/
def strStarts (s pat : String) : Bool := pat.data.isPrefixOf s.data

/-- `s.substring(n)` on character lists. -/
def strDrop (s : String) (n : Nat) : String := String.mk (s.data.drop n)

/-- `s.toLowerCase()` on character lists. -/
def strLower (s : String) : String := String.mk (s.data.map Char.toLower)

/-! ### Association lists standing for JS objects and `Map`s

JS `Map` preserves insertion order and updates an existing key in place;
plain objects behave the same for string keys. We model both as ordered
association lists. -/

/-- First-match lookup in a string-keyed association list. -/
def sLookup {α : Type} : List (String × α) → String → Option α
  | [], _ => none
  | (k, v) :: rest, key => if k = key then some v else sLookup rest key

/-- `Map.set` / object-key update for string keys: overwrite in place if the
key is present, otherwise append (insertion order preserved, as in JS). -/
def sSet {α : Type} : List (String × α) → String → α → List (String × α)
  | [], key, v => [(key, v)]
  | (k, w) :: rest, key, v =>
      if k = key then (k, v) :: rest else (k, w) :: sSet rest key v

/-- First-match lookup in a `Map` keyed by arbitrary JS values
(SameValueZero key comparison, as `Map` specifies). -/
def jLookup {α : Type} : List (JSVal × α) → JSVal → Option α
  | [], _ => none
  | (k, v) :: rest, key =>
      if JSVal.sameValueZero k key then some v else jLookup rest key

/-- `Map.set` for arbitrary JS keys (SameValueZero comparison). -/
def jSet {α : Type} : List (JSVal × α) → JSVal → α → List (JSVal × α)
  | [], key, v => [(key, v)]
  | (k, w) :: rest, key, v =>
      if JSVal.sameValueZero k key then (k, v) :: rest
      else (k, w) :: jSet rest key v

namespace JSVal

/-- Property access `v.key` on a non-null value: a missing property reads as
`undefined`; arrays, functions and DOM nodes expose none of the properties
the framework reads (`tag`, `attributes`, `innerText`, `children`, `id`). -/
def getProp : JSVal → String → JSVal
  | .vobj fields, key => (sLookup fields key).getD .vundef
  | _, _ => .vundef

end JSVal

/-! ### JavaScript string coercion -/

mutual
/-- JavaScript string coercion `String(v)`, as applied by
`document.createElement`, the `innerText` setter and `setAttribute`
(the source text of a function is opaque here). -/
def toStr : JSVal → String
  | .vstr s => s
  | .vnum n => toString n
  | .vbool true => "true"
  | .vbool false => "false"
  | .vnull => "null"
  | .vundef => "undefined"
  | .vfun _ => "function"
  | .varr xs => arrJoin xs
  | .vobj _ => "[object Object]"
  | .vnode _ => "[object HTMLElement]"
termination_by v => (sizeOf v, 0)

/-- `Array.prototype.toString`: elements joined with commas. -/
def arrJoin : List JSVal → String
  | [] => ""
  | x :: rest =>
      elemToStr x ++ (if rest.isEmpty then "" else ",") ++ arrJoin rest
termination_by xs => (sizeOf xs, 2)

/-- Array elements that are `null` or `undefined` render as empty. -/
def elemToStr : JSVal → String
  | .vnull => ""
  | .vundef => ""
  | v => toStr v
termination_by v => (sizeOf v, 1)
end

/-! ### Decimal index keys (array spread) -/

/-- The decimal digit characters. -/
def digitCh : Nat → Char
  | 0 => '0' | 1 => '1' | 2 => '2' | 3 => '3' | 4 => '4'
  | 5 => '5' | 6 => '6' | 7 => '7' | 8 => '8' | _ => '9'

/-- Decimal digits of a natural number, most significant first. -/
def natDigits (n : Nat) : List Nat :=
  if _h : n < 10 then [n] else natDigits (n / 10) ++ [n % 10]
termination_by n
decreasing_by
  exact Nat.div_lt_self (by omega) (by omega)

/-- The decimal string under which a JS array element appears as an own
enumerable property key: "0", "1", "2", … -/
def idxKey (n : Nat) : String := String.mk ((natDigits n).map digitCh)

/-! ### Object entries and spread merge -/

/-- `Object.entries` / the own enumerable string-keyed properties consumed
by object spread: an object's fields in insertion order; an array's
elements under their decimal index keys; anything else (including
functions and DOM nodes, which carry no own enumerable properties in this
model) contributes nothing. -/
def objEntries : JSVal → List (String × JSVal)
  | .vobj fields => fields
  | .varr xs => enumEntries 0 xs
  | _ => []
where
  enumEntries : Nat → List JSVal → List (String × JSVal)
    | _, [] => []
    | i, x :: rest => (idxKey i, x) :: enumEntries (i + 1) rest

/-- The object spread `{ ...old, ...upd }` on two entry lists: keys of
`old` keep their position, with values overridden by `upd` where present;
keys of `upd` absent from `old` are appended in order. -/
def spreadMerge (old upd : List (String × JSVal)) : List (String × JSVal) :=
  (old.map fun kv => (kv.1, (sLookup upd kv.1).getD kv.2))
    ++ upd.filter fun kv => (sLookup old kv.1).isNone

/-! ### The reactive store (`framework/state.js`) -/

/-- The `State` class: internal state object, listener array (listeners
are opaque, identified by tags) and the single update-callback slot. -/
structure State where
  state : List (String × JSVal)
  listeners : List Nat
  updateCallback : Option Nat

/-- Observable outcome of one `setState` call: the updated instance, the
boolean return value, the listeners invoked (in order) and whether the
update callback was invoked. -/
structure SetStateResult where
  self : State
  ret : Bool
  notified : List Nat
  callbackFired : Bool

namespace State

/-- `getState()`: returns the current state object. -/
def getState (self : State) : List (String × JSVal) := self.state

/-- `setUpdateCallback(callback)`: replaces the update callback. -/
def setUpdateCallback (self : State) (callback : Nat) : State :=
  { self with updateCallback := some callback }

/-- `update()`: executes every registered listener, in registration
order; the result records the invocations. -/
def update (self : State) : List Nat := self.listeners

/-- `setState(newVal, triggerUpdate)`: rejects a non-object `newVal` by
returning `false`; otherwise spread-merges it into the state, then, when
`triggerUpdate` holds, runs `update()` and the update callback (if set),
and returns `true`. -/
def setState (self : State) (newVal : JSVal) (triggerUpdate : Bool) :
    SetStateResult :=
  if newVal.typeof != "object" || newVal.isNull then
    ⟨self, false, [], false⟩
  else
    let selfMerged : State :=
      { self with state := spreadMerge self.state (objEntries newVal) }
    if triggerUpdate then
      ⟨selfMerged, true, selfMerged.update, selfMerged.updateCallback.isSome⟩
    else
      ⟨selfMerged, true, [], false⟩

end State

/-! ### The router (`framework/route.js`) -/

/-- The browser-facing context the router reads and writes: the global
route table `allRoutes`, the current `window.location.hash`, the stack of
entries pushed via `history.pushState`, the handlers invoked so far (in
order, each invoked with zero arguments) and the console log. -/
structure RouterSt where
  allRoutes : List (String × JSVal)
  hash : String
  history : List String
  invoked : List JSVal
  consoleLogs : List String

/-- `addRoute(url, handler)`: returns `false` without touching the table
when `url` is not a string or `handler` is not a function, or when the
path is already registered; otherwise registers the mapping and returns
`true`. -/
def addRoute (url handler : JSVal) (routes : List (String × JSVal)) :
    List (String × JSVal) × Bool :=
  if url.typeof != "string" || handler.typeof != "function" then
    (routes, false)
  else if (sLookup routes url.asStr).isSome then
    (routes, false)
  else
    (sSet routes url.asStr handler, true)

/-- `executeRoute(url)`: strips one leading `#` if present, falls back to
`/` when the cleaned path is unregistered, invokes the resolved handler
(or logs when even `/` is unregistered), and finally pushes a history
entry for the `#`-headed resolved path when it differs from the current
fragment (`history.pushState` also updates `window.location.hash`). -/
def executeRoute (url : String) (st : RouterSt) : RouterSt :=
  let cleanUrl := if strStarts url "#" then strDrop url 1 else url
  let cleanUrl :=
    if (sLookup st.allRoutes cleanUrl).isNone then "/" else cleanUrl
  let st :=
    match sLookup st.allRoutes cleanUrl with
    | some handler => { st with invoked := st.invoked ++ [handler] }
    | none =>
        { st with consoleLogs :=
            st.consoleLogs ++ ["No handler found for route: " ++ cleanUrl] }
  let hashUrl := if strStarts cleanUrl "#" then cleanUrl else "#" ++ cleanUrl
  if st.hash != hashUrl then
    { st with history := st.history ++ [hashUrl], hash := hashUrl }
  else
    st

/-! ### The element model (`createVirtualElement`) -/

/-- The per-child test of `createVirtualElement`'s loop (the negation of
its throw condition): a non-null object whose `tag` is a string, whose
`attributes` is truthy and an `Object` instance, and whose `children` is
a truthy array. The loop does not recurse into grandchildren, does not
require the child's `tag` to be non-empty and does not look at the
child's `innerText`. -/
def childCheck (child : JSVal) : Bool :=
  child.typeof == "object" && !child.isNull
    && (child.getProp "tag").typeof == "string"
    && ((child.getProp "attributes").truthy
          && (child.getProp "attributes").instOfObject)
    && (child.getProp "children").truthy
    && (child.getProp "children").isArr

/-- `createVirtualElement(tag, attributes, innerText, children)` from
`TodoMVC/ToDoApp.js`: fail-fast validation of the four own arguments, one
level of validation of each direct child, then construction of the plain
virtual-element object. A `throw` is modelled by `Except.error` carrying
the message. -/
def createVirtualElement (tag attributes innerText children : JSVal) :
    Except String JSVal :=
  if !tag.truthy || tag.typeof != "string" then
    .error "Error: tag is not a string"
  else if !attributes.truthy || attributes.typeof != "object"
      || attributes.isNull then
    .error "Error: attributes are not an object"
  else if innerText.truthy && innerText.typeof != "string" then
    .error "Error: innerText is not a string"
  else if !children.truthy || !children.isArr then
    .error "Error: children is not an array"
  else if children.asArr.all childCheck then
    .ok (.vobj [("tag", tag), ("attributes", attributes),
                ("innerText", innerText), ("children", children)])
  else
    .error
      "Error: each child must be a virtual element with tag, attributes, and children"

/-! ### Claim-side predicates for the structural invariant

These two definitions follow the specification's words ("each node has a
non-empty string tag, an object attribute mapping, optional string text,
and an array of children", applied recursively), to be compared with the
behaviour of `createVirtualElement` above. -/

theorem sLookup_sizeOf {fields : List (String × JSVal)} {k : String}
    {v : JSVal} (h : sLookup fields k = some v) : sizeOf v < sizeOf fields := by
  induction fields with
  | nil => simp [sLookup] at h
  | cons kv rest ih =>
      obtain ⟨k0, v0⟩ := kv
      by_cases hk : k0 = k
      · simp [sLookup, hk] at h
        subst h
        simp
        omega
      · simp [sLookup, hk] at h
        have := ih h
        simp
        omega

theorem getProp_sizeOf {v : JSVal} {k : String}
    (h : v.getProp k ≠ JSVal.vundef) : sizeOf (v.getProp k) < sizeOf v := by
  cases v <;> simp [JSVal.getProp] at h ⊢
  case vobj fields =>
    cases hl : sLookup fields k with
    | none => simp [hl] at h
    | some w =>
        simp [hl] at h ⊢
        have := sLookup_sizeOf hl
        omega

mutual
/-- The specification's structural invariant, applied recursively at every
depth: a non-null object with a non-empty string `tag`, a non-null object
`attributes`, an optional (absent-or-string) `innerText`, and an array
`children` of nodes that themselves satisfy the invariant. -/
def validNode (v : JSVal) : Bool :=
  v.typeof == "object" && !v.isNull
    && (v.getProp "tag").typeof == "string" && (v.getProp "tag").truthy
    && (v.getProp "attributes").typeof == "object"
    && !(v.getProp "attributes").isNull
    && ((v.getProp "innerText").isUndef
          || (v.getProp "innerText").typeof == "string")
    && (match hv : v.getProp "children" with
        | .varr xs => validNodes xs
        | _ => false)
termination_by 2 * sizeOf v + 1
decreasing_by
  have hne : v.getProp "children" ≠ JSVal.vundef := by
    rw [hv]
    intro hcon
    cases hcon
  have hlt := getProp_sizeOf hne
  rw [hv] at hlt
  simp at hlt
  omega

/-- The invariant over a list of sibling nodes. -/
def validNodes : List JSVal → Bool
  | [] => true
  | x :: rest => validNode x && validNodes rest
termination_by xs => 2 * sizeOf xs
decreasing_by
  all_goals simp
  all_goals omega
end

/-- The specification's requirements on `createVirtualElement`'s own four
arguments: non-empty string tag, non-null object attributes, optional
(absent-or-string) text, array children. -/
def rootArgsValid (tag attributes innerText children : JSVal) : Bool :=
  tag.typeof == "string" && tag.truthy
    && attributes.typeof == "object" && !attributes.isNull
    && (innerText.isUndef || innerText.typeof == "string")
    && children.isArr

/-! ### The renderer (`TodoMVC/ToDoApp.js`) -/

/-- Lookup in a node-id-keyed map. -/
def nLookup {α : Type} : List (Nat × α) → Nat → Option α
  | [], _ => none
  | (k, v) :: rest, key => if k = key then some v else nLookup rest key

/-- Update-or-append in a node-id-keyed map. -/
def nSet {α : Type} : List (Nat × α) → Nat → α → List (Nat × α)
  | [], key, v => [(key, v)]
  | (k, w) :: rest, key, v =>
      if k = key then (k, v) :: rest else (k, w) :: nSet rest key v

/-- One live DOM element: tag name, text content, attribute map, the
`checked` property, attached event listeners (event name and handler)
and the ordered child-node ids. -/
structure DomNode where
  tag : String
  text : String
  attrs : List (String × String)
  checked : Bool
  listeners : List (String × JSVal)
  children : List Nat

/-- The world the renderer acts on: a fresh-node-id allocator, the node
heap, the two bookkeeping tables (`virtualToDomMap`, strongly held, keyed
by `elem.id`; `domToVirtualMap`, weakly held, keyed by the node), the
global store, counters of listener and update-callback invocations caused
so far, and the current render pass's trace of bookkeeping registrations
(`(elem.id value, node id)` in registration order — instrumentation
recording the moment `elementToHtmlElement` writes the two tables). -/
structure RenderSt where
  nextNode : Nat
  nodes : List (Nat × DomNode)
  virtualToDomMap : List (JSVal × Nat)
  domToVirtualMap : List (Nat × JSVal)
  store : State
  listenerCalls : Nat
  callbackCalls : Nat
  passLog : List (JSVal × Nat)

/-- In-place mutation of one live node. -/
def modifyNode (st : RenderSt) (nid : Nat) (f : DomNode → DomNode) :
    RenderSt :=
  match nLookup st.nodes nid with
  | some nd => { st with nodes := nSet st.nodes nid (f nd) }
  | none => st

/-- One iteration of the attribute loop of `elementToHtmlElement`: an
`on…`-keyed function value becomes an event listener (key minus its two
leading letters, lower-cased); the `checked` key sets the live boolean
property and mirrors it as presence or absence of the `checked`
attribute; any other non-null, non-undefined value is set as a
stringified attribute; null and undefined values are skipped. -/
def applyAttr (nd : DomNode) (attrName : String) (attrValue : JSVal) :
    DomNode :=
  if strStarts attrName "on" && attrValue.typeof == "function" then
    { nd with listeners :=
        nd.listeners ++ [(strLower (strDrop attrName 2), attrValue)] }
  else if attrName == "checked" then
    if attrValue.truthy then
      { nd with checked := true, attrs := sSet nd.attrs "checked" "checked" }
    else
      { nd with checked := false,
                attrs := nd.attrs.filter fun kv => kv.1 != "checked" }
  else if !attrValue.isNull && !attrValue.isUndef then
    { nd with attrs := sSet nd.attrs attrName (toStr attrValue) }
  else
    nd

/-- The state after the `document.createElement` and bookkeeping steps of
`elementToHtmlElement` (source lines 850–854): a fresh node allocated
under the element's tag, registered in both bookkeeping tables — and in
the pass trace — before any recursion into children. -/
def registeredState (elem : JSVal) (st : RenderSt) : RenderSt :=
  { st with
      nextNode := st.nextNode + 1,
      nodes := nSet st.nodes st.nextNode
        ⟨toStr (elem.getProp "tag"), "", [], false, [], []⟩,
      virtualToDomMap :=
        jSet st.virtualToDomMap (elem.getProp "id") st.nextNode,
      domToVirtualMap := nSet st.domToVirtualMap st.nextNode elem,
      passLog := st.passLog ++ [(elem.getProp "id", st.nextNode)] }

/-- The state after the optional `innerText` write (source lines
856–858). -/
def midState (elem : JSVal) (st : RenderSt) : RenderSt :=
  if (elem.getProp "innerText").truthy then
    modifyNode (registeredState elem st) st.nextNode
      (fun nd => { nd with text := toStr (elem.getProp "innerText") })
  else registeredState elem st

/-- The state after the attribute loop (source lines 870–889). -/
def attrState (elem : JSVal) (st : RenderSt) : RenderSt :=
  (objEntries (elem.getProp "attributes")).foldl
    (fun s kv => modifyNode s st.nextNode fun nd => applyAttr nd kv.1 kv.2)
    (midState elem st)

mutual
/-- `elementToHtmlElement(elem)`: materializes one virtual element into a
fresh DOM node. Steps in source order: reject non-objects (and `null`,
whose `elem.tag` access throws a TypeError); `document.createElement`;
register the node in both bookkeeping tables — and the pass trace —
before any recursion (`registeredState`); set `innerText` when truthy
(`midState`); reject an `attributes` value that is falsy, not an object,
null or an array (the source's live-attribute-collection rejection is
subsumed here because a DOM node's `attributes` property reads as
undefined in this model); apply each attribute pair (`attrState`);
finally materialize and append each child in order. Mutations made
before a throw are kept — JS exceptions roll nothing back. -/
def elementToHtmlElement (elem : JSVal) (st : RenderSt) :
    RenderSt × Except String Nat :=
  if elem.typeof != "object" then
    (st, .error "Error: elem is not an object")
  else if elem.isNull then
    (st, .error "TypeError: cannot read properties of null")
  else
    let attrs := elem.getProp "attributes"
    if !attrs.truthy || attrs.typeof != "object" || attrs.isNull
        || attrs.isArr then
      (midState elem st, .error "Error: elem.attributes is not a plain object")
    else
      match hc : elem.getProp "children" with
      | .varr xs =>
          (match appendChildren xs st.nextNode (attrState elem st) with
           | (st2, .error e) => (st2, .error e)
           | (st2, .ok _) => (st2, .ok st.nextNode))
      | _ =>
          (attrState elem st,
           .error "TypeError: elem.children.forEach is not a function")
termination_by 2 * sizeOf elem + 1
decreasing_by
  have hne : elem.getProp "children" ≠ JSVal.vundef := by
    rw [hc]
    intro hcon
    cases hcon
  have hlt := getProp_sizeOf hne
  rw [hc] at hlt
  simp at hlt
  omega

/-- The `elem.children.forEach` loop of `elementToHtmlElement`:
materialize each child, then `appendChild` it to the parent; a throw in
one child aborts the remainder, keeping the mutations already made. -/
def appendChildren (xs : List JSVal) (parent : Nat) (st : RenderSt) :
    RenderSt × Except String Unit :=
  match xs with
  | [] => (st, .ok ())
  | c :: rest =>
      match elementToHtmlElement c st with
      | (st1, .error e) => (st1, .error e)
      | (st1, .ok cid) =>
          appendChildren rest parent
            (modifyNode st1 parent fun nd =>
              { nd with children := nd.children ++ [cid] })
termination_by 2 * sizeOf xs
decreasing_by
  all_goals simp
  all_goals omega
end

/-- The top-level append loop of `updateDom`. -/
def attachLoop (xs : List JSVal) (topElement : Nat) (st : RenderSt) :
    RenderSt × Except String Unit :=
  match xs with
  | [] => (st, .ok ())
  | e :: rest =>
      match elementToHtmlElement e st with
      | (st1, .error msg) => (st1, .error msg)
      | (st1, .ok nid) =>
          attachLoop rest topElement
            (modifyNode st1 topElement fun nd =>
              { nd with children := nd.children ++ [nid] })

/-- `updateDom(topElement, attachElements)`: validates that
`attachElements` is an array whose members are all objects (the source
throws at the first offender; no mutation has happened at that point),
clears the strong forward bookkeeping table (the pass trace, an
instrumentation artefact, is reset with it), silently writes the new
tree and the container reference into the global store via
`setState(..., false)`, destroys the container's existing content
(`innerHTML = ""`), then materializes and appends each element in
order. -/
def updateDom (topElement : Nat) (attachElements : JSVal) (st : RenderSt) :
    RenderSt × Except String Unit :=
  if !attachElements.truthy || !attachElements.isArr then
    (st, .error "Error: attachElements is not an array")
  else if !(attachElements.asArr.all fun e => e.typeof == "object") then
    (st, .error "Error: element is not an object")
  else
    let st : RenderSt := { st with virtualToDomMap := [], passLog := [] }
    let res := st.store.setState
      (.vobj [("vDOM", attachElements), ("topElement", .vnode topElement)])
      false
    let st : RenderSt :=
      { st with
          store := res.self,
          listenerCalls := st.listenerCalls + res.notified.length,
          callbackCalls :=
            st.callbackCalls + (if res.callbackFired then 1 else 0) }
    let st := modifyNode st topElement fun nd =>
      { nd with text := "", children := [] }
    attachLoop attachElements.asArr topElement st

/-! ### Lemmas about the association-list operations -/

/-- Left-biased choice on options (the shape of lookups in appended
lists). -/
def oFirst {α : Type} : Option α → Option α → Option α
  | some x, _ => some x
  | none, b => b

theorem oFirst_none {α : Type} (b : Option α) : oFirst none b = b := rfl

theorem oFirst_some {α : Type} (x : α) (b : Option α) :
    oFirst (some x) b = some x := rfl

theorem sLookup_append {α : Type} (l1 l2 : List (String × α)) (k : String) :
    sLookup (l1 ++ l2) k = oFirst (sLookup l1 k) (sLookup l2 k) := by
  induction l1 with
  | nil => simp [sLookup, oFirst]
  | cons kv rest ih =>
      by_cases hk : kv.1 = k
      · simp [sLookup, hk, oFirst]
      · simp [sLookup, hk, ih]

theorem sLookup_map_override (old upd : List (String × JSVal)) (k : String) :
    sLookup (old.map fun kv => (kv.1, (sLookup upd kv.1).getD kv.2)) k
      = (sLookup old k).map fun v => (sLookup upd k).getD v := by
  induction old with
  | nil => simp [sLookup]
  | cons kv rest ih =>
      by_cases hk : kv.1 = k
      · subst hk
        simp [sLookup]
      · simp [sLookup, hk, ih]

theorem sLookup_filter {α : Type} (p : String → Bool)
    (l : List (String × α)) (k : String) :
    sLookup (l.filter fun kv => p kv.1) k
      = if p k then sLookup l k else none := by
  induction l with
  | nil => simp [sLookup]
  | cons kv rest ih =>
      by_cases hk : kv.1 = k
      · subst hk
        by_cases hp : p kv.1
        · simp [sLookup, hp]
        · simp [sLookup, hp, ih, hp]
      · by_cases hp : p kv.1
        · simp [sLookup, List.filter, hp, hk, ih]
        · simp [sLookup, List.filter, hp, hk, ih]

theorem sLookup_sSet_self {α : Type} (l : List (String × α)) (k : String)
    (v : α) : sLookup (sSet l k v) k = some v := by
  induction l with
  | nil => simp [sSet, sLookup]
  | cons kv rest ih =>
      by_cases hk : kv.1 = k
      · simp [sSet, hk, sLookup]
      · simp [sSet, hk, sLookup, ih]

theorem sLookup_sSet_other {α : Type} (l : List (String × α)) (k q : String)
    (v : α) (h : q ≠ k) : sLookup (sSet l k v) q = sLookup l q := by
  induction l with
  | nil => simp [sSet, sLookup, Ne.symm h]
  | cons kv rest ih =>
      by_cases hk : kv.1 = k
      · subst hk
        simp [sSet, sLookup, Ne.symm h, ih]
      · simp [sSet, hk, sLookup, ih]

theorem nLookup_nSet_self {α : Type} (l : List (Nat × α)) (k : Nat)
    (v : α) : nLookup (nSet l k v) k = some v := by
  induction l with
  | nil => simp [nSet, nLookup]
  | cons kv rest ih =>
      by_cases hk : kv.1 = k
      · simp [nSet, hk, nLookup]
      · simp [nSet, hk, nLookup, ih]

theorem nLookup_nSet_other {α : Type} (l : List (Nat × α)) (k q : Nat)
    (v : α) (h : q ≠ k) : nLookup (nSet l k v) q = nLookup l q := by
  induction l with
  | nil => simp [nSet, nLookup, Ne.symm h]
  | cons kv rest ih =>
      by_cases hk : kv.1 = k
      · subst hk
        simp [nSet, nLookup, Ne.symm h, ih]
      · simp [nSet, hk, nLookup, ih]

/-! ### SameValueZero facts -/

/-- Keys that compare SameValueZero-equal are in fact equal (the converse
fails for arrays and objects, which compare by reference). -/
theorem svz_eq {a b : JSVal} (h : JSVal.sameValueZero a b = true) :
    a = b := by
  cases a <;> cases b <;> simp_all [JSVal.sameValueZero]

theorem svz_symm {a b : JSVal} (h : JSVal.sameValueZero a b = true) :
    JSVal.sameValueZero b a = true := by
  cases a <;> cases b <;> simp_all [JSVal.sameValueZero]

theorem jLookup_jSet {α : Type} (m : List (JSVal × α)) (key q : JSVal)
    (v : α) :
    jLookup (jSet m key v) q =
      if JSVal.sameValueZero key q then some v else jLookup m q := by
  induction m with
  | nil => simp [jSet, jLookup]
  | cons kv rest ih =>
      obtain ⟨k, w⟩ := kv
      by_cases hk : JSVal.sameValueZero k key
      · have hkk : k = key := svz_eq hk
        subst hkk
        by_cases hq : JSVal.sameValueZero k q <;> simp [jSet, hk, jLookup, hq]
      · by_cases hq : JSVal.sameValueZero k q
        · have hkq : k = q := svz_eq hq
          subst hkq
          have : JSVal.sameValueZero key k = false := by
            by_contra hc
            simp at hc
            have := svz_eq hc
            subst this
            simp_all
          have hkey : JSVal.sameValueZero key k = false := this
          simp [jSet, hk, jLookup, hq, hkey]
        · simp [jSet, hk, jLookup, hq, ih]

theorem jLookup_append {α : Type} (l1 l2 : List (JSVal × α)) (k : JSVal) :
    jLookup (l1 ++ l2) k = oFirst (jLookup l1 k) (jLookup l2 k) := by
  induction l1 with
  | nil => simp [jLookup, oFirst]
  | cons kv rest ih =>
      by_cases hk : JSVal.sameValueZero kv.1 k
      · simp [jLookup, hk, oFirst]
      · simp [jLookup, hk, ih]

/-- Entries of a map after `jSet` come from the old map or are the pair
just written (the overwritten entry keeps its stored key, which by
`svz_eq` equals the written key). -/
theorem jSet_mem {α : Type} (m : List (JSVal × α)) (key : JSVal) (v : α) :
    ∀ kv ∈ jSet m key v, kv ∈ m ∨ kv = (key, v) := by
  induction m with
  | nil =>
      intro kv hm
      simp [jSet] at hm
      exact Or.inr hm
  | cons hd rest ih =>
      intro kv hm
      by_cases hk : JSVal.sameValueZero hd.1 key
      · have : hd.1 = key := svz_eq hk
        simp [jSet, hk] at hm
        rcases hm with h | h
        · exact Or.inr (by simp [h, this])
        · exact Or.inl (List.mem_cons_of_mem _ h)
      · simp [jSet, hk] at hm
        rcases hm with h | h
        · exact Or.inl (by simp [h])
        · rcases ih kv h with h2 | h2
          · exact Or.inl (List.mem_cons_of_mem _ h2)
          · exact Or.inr h2

/-! ### Spread-merge lookup laws -/

theorem spreadMerge_lookup_override {old upd : List (String × JSVal)}
    {k : String} {w : JSVal} (h : sLookup upd k = some w) :
    sLookup (spreadMerge old upd) k = some w := by
  unfold spreadMerge
  rw [sLookup_append, sLookup_map_override]
  cases hold : sLookup old k with
  | some v => simp [hold, h, oFirst]
  | none =>
      rw [sLookup_filter (fun s => (sLookup old s).isNone)]
      simp [hold, h, oFirst]

theorem spreadMerge_lookup_keep {old upd : List (String × JSVal)}
    {k : String} (h : sLookup upd k = none) :
    sLookup (spreadMerge old upd) k = sLookup old k := by
  unfold spreadMerge
  rw [sLookup_append, sLookup_map_override]
  cases hold : sLookup old k with
  | some v => simp [hold, h, oFirst]
  | none =>
      rw [sLookup_filter (fun s => (sLookup old s).isNone)]
      simp [hold, h, oFirst]

theorem spreadMerge_preserves {old upd : List (String × JSVal)}
    {k : String} {v : JSVal} (h : sLookup old k = some v) :
    sLookup (spreadMerge old upd) k = some ((sLookup upd k).getD v) := by
  unfold spreadMerge
  rw [sLookup_append, sLookup_map_override]
  simp [h, oFirst]

theorem spreadMerge_isSome {old upd : List (String × JSVal)} {k : String}
    (h : (sLookup old k).isSome) :
    (sLookup (spreadMerge old upd) k).isSome := by
  cases hold : sLookup old k with
  | none => simp [hold] at h
  | some v => simp [spreadMerge_preserves hold]

/-! ### Behaviour of `setState` (helper lemmas) -/

theorem State.setState_obj (s : State) (v : JSVal) (t : Bool)
    (hv : v.typeof = "object") (hn : v.isNull = false) :
    s.setState v t =
      ⟨⟨spreadMerge s.state (objEntries v), s.listeners, s.updateCallback⟩,
       true,
       if t then s.listeners else [],
       if t then s.updateCallback.isSome else false⟩ := by
  unfold State.setState
  simp [hv, hn, State.update]
  cases t <;> simp

theorem State.setState_reject (s : State) (v : JSVal) (t : Bool)
    (hv : (v.typeof != "object" || v.isNull) = true) :
    s.setState v t = ⟨s, false, [], false⟩ := by
  unfold State.setState
  simp [hv]

/-! ### C4 — shallow-merge law -/

/-- C4: shallow-merge law of the store. For two successive successful
`setState` calls with object partials `p1` then `p2` (any notify flags),
the resulting state maps every key of `p2` to `p2`'s value, every key of
`p1` not in `p2` to `p1`'s value, and every other pre-existing top-level
key to its previous value; moreover no `setState` call, with any argument
whatsoever, ever removes a key. -/
theorem setState_shallow_merge_law (s : State) (p1 p2 : JSVal)
    (t1 t2 : Bool)
    (h1 : p1.typeof = "object") (h1n : p1.isNull = false)
    (h2 : p2.typeof = "object") (h2n : p2.isNull = false) :
    (s.setState p1 t1).ret = true
    ∧ ((s.setState p1 t1).self.setState p2 t2).ret = true
    ∧ (∀ k w, sLookup (objEntries p2) k = some w →
        sLookup ((s.setState p1 t1).self.setState p2 t2).self.state k
          = some w)
    ∧ (∀ k w, sLookup (objEntries p2) k = none →
        sLookup (objEntries p1) k = some w →
        sLookup ((s.setState p1 t1).self.setState p2 t2).self.state k
          = some w)
    ∧ (∀ k, sLookup (objEntries p2) k = none →
        sLookup (objEntries p1) k = none →
        sLookup ((s.setState p1 t1).self.setState p2 t2).self.state k
          = sLookup s.state k)
    ∧ (∀ (q : JSVal) (t : Bool) (k : String),
        (sLookup s.state k).isSome = true →
        (sLookup ((s.setState q t).self.state) k).isSome = true) := by
  have e1 := State.setState_obj s p1 t1 h1 h1n
  have hs1 : (s.setState p1 t1).self.state
      = spreadMerge s.state (objEntries p1) := by rw [e1]
  have e2 := State.setState_obj (s.setState p1 t1).self p2 t2 h2 h2n
  have hs2 : ((s.setState p1 t1).self.setState p2 t2).self.state
      = spreadMerge (spreadMerge s.state (objEntries p1)) (objEntries p2) := by
    rw [e2, hs1]
  refine ⟨by rw [e1], by rw [e2], ?_, ?_, ?_, ?_⟩
  · intro k w hw
    rw [hs2]
    exact spreadMerge_lookup_override hw
  · intro k w h2none h1some
    rw [hs2, spreadMerge_lookup_keep h2none]
    exact spreadMerge_lookup_override h1some
  · intro k h2none h1none
    rw [hs2, spreadMerge_lookup_keep h2none]
    exact spreadMerge_lookup_keep h1none
  · intro q t k hk
    by_cases hq : (q.typeof != "object" || q.isNull) = true
    · rw [State.setState_reject s q t hq]
      exact hk
    · simp at hq
      rw [State.setState_obj s q t hq.1 (by simp [hq.2])]
      exact spreadMerge_isSome hk

/-- Witness for C4 at the specification's own example: on an empty store,
`setState({a:1})` then `setState({a:2,b:3})` yields exactly the state
`{a:2, b:3}` — later keys win and untouched keys persist. -/
theorem setState_shallow_merge_law_witness :
    ((State.mk [] [] none).setState (.vobj [("a", .vnum 1)]) true).ret = true
    ∧ (((State.mk [] [] none).setState (.vobj [("a", .vnum 1)]) true).self.setState
        (.vobj [("a", .vnum 2), ("b", .vnum 3)]) true).ret = true
    ∧ sLookup (((State.mk [] [] none).setState (.vobj [("a", .vnum 1)]) true).self.setState
        (.vobj [("a", .vnum 2), ("b", .vnum 3)]) true).self.state "a"
        = some (.vnum 2)
    ∧ sLookup (((State.mk [] [] none).setState (.vobj [("a", .vnum 1)]) true).self.setState
        (.vobj [("a", .vnum 2), ("b", .vnum 3)]) true).self.state "b"
        = some (.vnum 3)
    ∧ (((State.mk [] [] none).setState (.vobj [("a", .vnum 1)]) true).self.setState
        (.vobj [("a", .vnum 2), ("b", .vnum 3)]) true).self.state
        = [("a", .vnum 2), ("b", .vnum 3)] := by
  have h := setState_shallow_merge_law (State.mk [] [] none)
    (.vobj [("a", .vnum 1)]) (.vobj [("a", .vnum 2), ("b", .vnum 3)])
    true true rfl rfl rfl rfl
  exact ⟨h.1, h.2.1,
    h.2.2.1 "a" (.vnum 2) rfl,
    h.2.2.1 "b" (.vnum 3) rfl,
    rfl⟩

/-! ### C5 — silent update -/

/-- C5: silent update. For any object partial, `setState(partial, false)`
merges the partial so that an immediately subsequent `getState()` observes
the merged state, while zero listeners are invoked and the update callback
is not invoked; the listener list and the callback slot themselves are
untouched. -/
theorem setState_silent (s : State) (p : JSVal)
    (h : p.typeof = "object") (hn : p.isNull = false) :
    (s.setState p false).ret = true
    ∧ (s.setState p false).notified = []
    ∧ (s.setState p false).callbackFired = false
    ∧ (∀ k w, sLookup (objEntries p) k = some w →
        sLookup (s.setState p false).self.getState k = some w)
    ∧ (∀ k, sLookup (objEntries p) k = none →
        sLookup (s.setState p false).self.getState k
          = sLookup s.getState k)
    ∧ (s.setState p false).self.listeners = s.listeners
    ∧ (s.setState p false).self.updateCallback = s.updateCallback := by
  rw [State.setState_obj s p false h hn]
  refine ⟨rfl, rfl, rfl, ?_, ?_, rfl, rfl⟩
  · intro k w hw
    exact spreadMerge_lookup_override hw
  · intro k hk
    exact spreadMerge_lookup_keep hk

/-- Witness for C5: a silent write on a store with one listener and a set
update callback merges the value while notifying nobody. -/
theorem setState_silent_witness :
    ((State.mk [("y", .vnum 0)] [7] (some 9)).setState
        (.vobj [("x", .vnum 5)]) false).ret = true
    ∧ ((State.mk [("y", .vnum 0)] [7] (some 9)).setState
        (.vobj [("x", .vnum 5)]) false).notified = []
    ∧ ((State.mk [("y", .vnum 0)] [7] (some 9)).setState
        (.vobj [("x", .vnum 5)]) false).callbackFired = false
    ∧ sLookup ((State.mk [("y", .vnum 0)] [7] (some 9)).setState
        (.vobj [("x", .vnum 5)]) false).self.getState "x" = some (.vnum 5)
    ∧ sLookup ((State.mk [("y", .vnum 0)] [7] (some 9)).setState
        (.vobj [("x", .vnum 5)]) false).self.getState "y" = some (.vnum 0)
    ∧ ((State.mk [("y", .vnum 0)] [7] (some 9)).setState
        (.vobj [("x", .vnum 5)]) false).self.listeners = [7]
    ∧ ((State.mk [("y", .vnum 0)] [7] (some 9)).setState
        (.vobj [("x", .vnum 5)]) false).self.updateCallback = some 9 := by
  have h := setState_silent (State.mk [("y", .vnum 0)] [7] (some 9))
    (.vobj [("x", .vnum 5)]) rfl rfl
  refine ⟨h.1, h.2.1, h.2.2.1, h.2.2.2.1 "x" (.vnum 5) rfl, ?_, h.2.2.2.2.2.1, h.2.2.2.2.2.2⟩
  have := h.2.2.2.2.1 "y" rfl
  rw [this]
  rfl

/-! ### C10 — arrays pass the non-object rejection -/

theorem natDigits_foldl (n : Nat) :
    (natDigits n).foldl (fun a d => a * 10 + d) 0 = n := by
  induction n using Nat.strong_induction_on with
  | _ n ih =>
      rw [natDigits]
      by_cases h : n < 10
      · simp [h]
      · simp [h, List.foldl_append]
        have hrec := ih (n / 10) (Nat.div_lt_self (by omega) (by omega))
        rw [hrec]
        omega

theorem natDigits_lt_ten (n : Nat) : ∀ d ∈ natDigits n, d < 10 := by
  induction n using Nat.strong_induction_on with
  | _ n ih =>
      rw [natDigits]
      by_cases h : n < 10
      · intro d hd
        simp [h] at hd
        omega
      · intro d hd
        simp [h] at hd
        rcases hd with hd | hd
        · exact ih (n / 10) (Nat.div_lt_self (by omega) (by omega)) d hd
        · omega

theorem digitCh_inj {a b : Nat} (ha : a < 10) (hb : b < 10)
    (h : digitCh a = digitCh b) : a = b := by
  interval_cases a <;> interval_cases b <;> revert h <;> decide

theorem mapDigitCh_inj (l1 : List Nat) : ∀ (l2 : List Nat),
    (∀ d ∈ l1, d < 10) → (∀ d ∈ l2, d < 10) →
    l1.map digitCh = l2.map digitCh → l1 = l2 := by
  induction l1 with
  | nil =>
      intro l2 _ _ h
      cases l2 <;> simp_all
  | cons d rest ih =>
      intro l2 h1 h2 h
      cases l2 with
      | nil => simp_all
      | cons e rest2 =>
          simp at h
          have hd : d = e :=
            digitCh_inj (h1 d (by simp)) (h2 e (by simp)) h.1
          have hr := ih rest2 (fun x hx => h1 x (by simp [hx]))
            (fun x hx => h2 x (by simp [hx])) h.2
          simp [hd, hr]

theorem idxKey_inj {m n : Nat} (h : idxKey m = idxKey n) : m = n := by
  have hdata : (natDigits m).map digitCh = (natDigits n).map digitCh := by
    simpa [idxKey] using congrArg String.data h
  have hdig := mapDigitCh_inj (natDigits m) (natDigits n)
    (natDigits_lt_ten m) (natDigits_lt_ten n) hdata
  have h1 := natDigits_foldl m
  have h2 := natDigits_foldl n
  rw [hdig] at h1
  exact h1.symm.trans h2

theorem enumEntries_lookup (xs : List JSVal) : ∀ (j i : Nat)
    (h : i < xs.length),
    sLookup (objEntries.enumEntries j xs) (idxKey (j + i))
      = some (xs.get ⟨i, h⟩) := by
  induction xs with
  | nil =>
      intro j i h
      simp at h
  | cons x rest ih =>
      intro j i h
      cases i with
      | zero => simp [objEntries.enumEntries, sLookup]
      | succ i2 =>
          have hne : ¬(idxKey j = idxKey (j + (i2 + 1))) := by
            intro hc
            have := idxKey_inj hc
            omega
          have hstep := ih (j + 1) i2 (by simpa using h)
          have harg : j + 1 + i2 = j + (i2 + 1) := by omega
          rw [harg] at hstep
          simp [objEntries.enumEntries, sLookup, hne, hstep]

/-- C10: the non-object rejection of `setState` does not exclude arrays.
For every JavaScript array `xs` (and either notify flag), `setState`
returns `true`, and the array's enumerable index properties are
shallow-merged into the state under their decimal string keys "0", "1", …
so that index `i` reads back as `xs[i]`. -/
theorem setState_array_partial (s : State) (xs : List JSVal) (t : Bool) :
    (s.setState (.varr xs) t).ret = true
    ∧ ∀ (i : Nat) (h : i < xs.length),
        sLookup (s.setState (.varr xs) t).self.state (idxKey i)
          = some (xs.get ⟨i, h⟩) := by
  have e := State.setState_obj s (.varr xs) t rfl rfl
  constructor
  · rw [e]
  · intro i h
    have hidx := enumEntries_lookup xs 0 i h
    simp at hidx
    rw [e]
    exact spreadMerge_lookup_override (by
      show sLookup (objEntries (.varr xs)) (idxKey i) = _
      simpa [objEntries] using hidx)

/-- Witness for C10: `setState([4, "y"])` on a non-empty store returns
`true` and stores the elements under keys "0" and "1". -/
theorem setState_array_partial_witness :
    ((State.mk [("a", .vnum 1)] [] none).setState
        (.varr [.vnum 4, .vstr "y"]) true).ret = true
    ∧ sLookup ((State.mk [("a", .vnum 1)] [] none).setState
        (.varr [.vnum 4, .vstr "y"]) true).self.state (idxKey 1)
        = some (.vstr "y") := by
  have h := setState_array_partial (State.mk [("a", .vnum 1)] [] none)
    [.vnum 4, .vstr "y"] true
  exact ⟨h.1, h.2 1 (by simp)⟩

/-! ### C6 — addRoute contract -/

/-- C6: `addRoute` returns `false` and leaves the route table unchanged
whenever the path is not a string, the handler is not callable, or the
path is already registered; otherwise it adds the mapping (leaving all
other paths alone) and returns `true`. Registering the same path twice
makes the second call return `false` with the table still mapping the
path to the first handler. -/
theorem addRoute_contract (routes : List (String × JSVal))
    (url handler : JSVal) :
    ((url.typeof = "string" → False) ∨ (handler.typeof = "function" → False) →
        addRoute url handler routes = (routes, false))
    ∧ (∀ p, url = .vstr p → (sLookup routes p).isSome = true →
        addRoute url handler routes = (routes, false))
    ∧ (∀ p, url = .vstr p → handler.typeof = "function" →
        sLookup routes p = none →
        (addRoute url handler routes).2 = true
        ∧ sLookup (addRoute url handler routes).1 p = some handler
        ∧ ∀ q, q ≠ p →
            sLookup (addRoute url handler routes).1 q = sLookup routes q)
    ∧ (∀ p (g1 g2 : JSVal), g1.typeof = "function" →
        g2.typeof = "function" → sLookup routes p = none →
        (addRoute (.vstr p) g1 routes).2 = true
        ∧ (addRoute (.vstr p) g2 (addRoute (.vstr p) g1 routes).1).2 = false
        ∧ sLookup (addRoute (.vstr p) g2
            (addRoute (.vstr p) g1 routes).1).1 p = some g1) := by
  have hvstr : ∀ p : String, (JSVal.vstr p).typeof = "string" := fun _ => rfl
  have hastr : ∀ p : String, (JSVal.vstr p).asStr = p := fun _ => rfl
  refine ⟨?_, ?_, ?_, ?_⟩
  · intro h
    unfold addRoute
    rcases h with h | h
    · have hu : (url.typeof != "string") = true := by
        simp
        intro hc
        exact h hc
      simp [hu]
    · have hu : (handler.typeof != "function") = true := by
        simp
        intro hc
        exact h hc
      simp [hu]
  · intro p hp hsome
    subst hp
    unfold addRoute
    by_cases hf : handler.typeof = "function"
    · simp [hvstr, hastr, hf, hsome]
    · simp [hvstr, hastr, hf, hsome]
  · intro p hp hf hnone
    subst hp
    unfold addRoute
    simp [hvstr, hastr, hf, hnone]
    exact ⟨sLookup_sSet_self routes p handler,
      fun q hq => sLookup_sSet_other routes p q handler hq⟩
  · intro p g1 g2 h1 h2 hnone
    have hfst : addRoute (.vstr p) g1 routes = (sSet routes p g1, true) := by
      unfold addRoute
      simp [hvstr, hastr, h1, hnone]
    have hsnd : addRoute (.vstr p) g2 (sSet routes p g1)
        = (sSet routes p g1, false) := by
      unfold addRoute
      simp [hvstr, hastr, h2, sLookup_sSet_self routes p g1]
    refine ⟨by rw [hfst], by rw [hfst, hsnd], ?_⟩
    rw [hfst, hsnd]
    exact sLookup_sSet_self routes p g1

/-- Witness for C6: registering "/x" twice on an empty table — the first
call succeeds, the second returns `false` and the table still maps "/x"
to the first handler; a non-string path is rejected outright. -/
theorem addRoute_contract_witness :
    (addRoute (.vstr "/x") (.vfun 1) []).2 = true
    ∧ (addRoute (.vstr "/x") (.vfun 2)
        (addRoute (.vstr "/x") (.vfun 1) []).1).2 = false
    ∧ sLookup (addRoute (.vstr "/x") (.vfun 2)
        (addRoute (.vstr "/x") (.vfun 1) []).1).1 "/x" = some (.vfun 1)
    ∧ addRoute (.vnum 3) (.vfun 1) [] = ([], false) := by
  have h := addRoute_contract [] (.vstr "/x") (.vfun 1)
  have hdup := h.2.2.2 "/x" (.vfun 1) (.vfun 2) rfl rfl rfl
  have hbad := (addRoute_contract [] (.vnum 3) (.vfun 1)).1
    (Or.inl (fun hc => by simp [JSVal.typeof] at hc))
  exact ⟨hdup.1, hdup.2.1, hdup.2.2, hbad⟩

/-! ### C7 — executeRoute resolution and dispatch -/

/-- The fragment-stripped path `executeRoute` starts from. -/
def cleanedPath (url : String) : String :=
  if strStarts url "#" then strDrop url 1 else url

/-- The path `executeRoute` resolves to: the cleaned path when it is
registered, otherwise the root fallback "/". -/
def resolvedPath (routes : List (String × JSVal)) (url : String) : String :=
  if (sLookup routes (cleanedPath url)).isNone then "/" else cleanedPath url

/-- The "#"-headed form of a path, as compared against
`window.location.hash`. -/
def hashTarget (p : String) : String :=
  if strStarts p "#" then p else "#" ++ p

/-- C7: for every url, `executeRoute` strips one leading "#", substitutes
"/" when the cleaned path has no handler, invokes the resolved path's
handler (given one is registered), afterwards pushes exactly one history
entry for the "#"-headed resolved path precisely when it differs from the
current browser-visible fragment, and in all cases leaves the visible
fragment equal to that "#"-headed resolved path. The route table and the
console are untouched. -/
theorem executeRoute_dispatch (st : RouterSt) (url : String) (h : JSVal)
    (hh : sLookup st.allRoutes (resolvedPath st.allRoutes url) = some h) :
    (executeRoute url st).invoked = st.invoked ++ [h]
    ∧ ((executeRoute url st).history =
        if st.hash = hashTarget (resolvedPath st.allRoutes url)
        then st.history
        else st.history ++ [hashTarget (resolvedPath st.allRoutes url)])
    ∧ (executeRoute url st).hash = hashTarget (resolvedPath st.allRoutes url)
    ∧ (executeRoute url st).allRoutes = st.allRoutes
    ∧ (executeRoute url st).consoleLogs = st.consoleLogs := by
  have hclean : (if strStarts url "#" then strDrop url 1 else url)
      = cleanedPath url := rfl
  unfold executeRoute
  rw [hclean]
  by_cases hreg : (sLookup st.allRoutes (cleanedPath url)).isNone
  · simp only [resolvedPath, hreg, if_true] at hh ⊢
    rw [hh]
    have hbody : (if strStarts "/" "#" then "/" else "#" ++ "/")
        = "#/" := by decide
    have hht : hashTarget "/" = "#/" := by decide
    rw [hht, hbody]
    by_cases heq : st.hash = "#/"
    · simp [heq]
    · simp [heq]
  · simp only [resolvedPath, hreg, if_false] at hh ⊢
    rw [hh]
    unfold hashTarget
    by_cases heq : st.hash = (if strStarts (cleanedPath url) "#"
        then cleanedPath url else "#" ++ cleanedPath url)
    · simp [heq]
    · simp [heq]

/-- Witness for C7 at the specification's example: with a handler
registered for "/", `executeRoute "/does-not-exist"` executes that
handler and the visible fragment becomes "#/" (with the corresponding
history entry pushed). -/
theorem executeRoute_dispatch_witness :
    (executeRoute "/does-not-exist"
        (RouterSt.mk [("/", .vfun 0)] "" [] [] [])).invoked = [.vfun 0]
    ∧ (executeRoute "/does-not-exist"
        (RouterSt.mk [("/", .vfun 0)] "" [] [] [])).hash = "#/"
    ∧ (executeRoute "/does-not-exist"
        (RouterSt.mk [("/", .vfun 0)] "" [] [] [])).history = ["#/"] := by
  have h := executeRoute_dispatch (RouterSt.mk [("/", .vfun 0)] "" [] [] [])
    "/does-not-exist" (.vfun 0) rfl
  exact ⟨h.1.trans rfl, h.2.2.1.trans rfl, h.2.1.trans (by rfl)⟩

/-! ### C8 — the no-handler path -/

/-- C8 (amended): when neither the cleaned path nor the "/" fallback is
registered, `executeRoute` invokes no handler, throws nothing (the model
is a total function) and logs the failure — but the history-update step
still runs: the visible fragment still becomes "#/", and a history entry
"#/" is pushed whenever the current fragment differs from it. -/
theorem executeRoute_no_handler (st : RouterSt) (url : String)
    (h1 : sLookup st.allRoutes (cleanedPath url) = none)
    (h2 : sLookup st.allRoutes "/" = none) :
    (executeRoute url st).invoked = st.invoked
    ∧ (executeRoute url st).consoleLogs
        = st.consoleLogs ++ ["No handler found for route: /"]
    ∧ (executeRoute url st).allRoutes = st.allRoutes
    ∧ ((executeRoute url st).history =
        if st.hash = "#/" then st.history else st.history ++ ["#/"])
    ∧ (executeRoute url st).hash = "#/" := by
  have hclean : (if strStarts url "#" then strDrop url 1 else url)
      = cleanedPath url := rfl
  unfold executeRoute
  rw [hclean]
  have hr1 : (sLookup st.allRoutes (cleanedPath url)).isNone = true := by
    simp [h1]
  simp only [hr1, if_true]
  rw [h2]
  have hbody : (if strStarts "/" "#" then "/" else "#" ++ "/") = "#/" := by
    decide
  rw [hbody]
  by_cases heq : st.hash = "#/"
  · simp [heq]
  · simp [heq]

/-- Counterexample to C8 as stated: with an empty route table — so
neither the requested path nor "/" is registered — `executeRoute
"/missing"` invokes no handler, yet pushes the history entry "#/": the
claim that no history entry is pushed on the no-handler path is false. -/
theorem executeRoute_no_handler_pushes :
    sLookup (RouterSt.mk [] "" [] [] []).allRoutes (cleanedPath "/missing")
      = none
    ∧ sLookup (RouterSt.mk [] "" [] [] []).allRoutes "/" = none
    ∧ (executeRoute "/missing" (RouterSt.mk [] "" [] [] [])).invoked = []
    ∧ (RouterSt.mk [] "" [] [] [] : RouterSt).history = []
    ∧ (executeRoute "/missing" (RouterSt.mk [] "" [] [] [])).history
      = ["#/"] := by
  exact ⟨rfl, rfl, rfl, rfl, rfl⟩

/-- Witness for the amended C8 on a router whose fragment and history are
non-empty and whose table holds an unrelated route. -/
theorem executeRoute_no_handler_witness :
    (executeRoute "#/missing"
        (RouterSt.mk [("/other", .vfun 5)] "#/x" ["#/x"] [] [])).invoked = []
    ∧ (executeRoute "#/missing"
        (RouterSt.mk [("/other", .vfun 5)] "#/x" ["#/x"] [] [])).consoleLogs
      = ["No handler found for route: /"]
    ∧ (executeRoute "#/missing"
        (RouterSt.mk [("/other", .vfun 5)] "#/x" ["#/x"] [] [])).history
      = ["#/x", "#/"]
    ∧ (executeRoute "#/missing"
        (RouterSt.mk [("/other", .vfun 5)] "#/x" ["#/x"] [] [])).hash
      = "#/" := by
  have h := executeRoute_no_handler
    (RouterSt.mk [("/other", .vfun 5)] "#/x" ["#/x"] [] []) "#/missing"
    rfl rfl
  exact ⟨h.1.trans rfl, h.2.1.trans rfl, h.2.2.2.1.trans (by rfl),
    h.2.2.2.2⟩

/-! ### C3 — construction-time validation -/

theorem obj_truthy_inst (a : JSVal) (h1 : a.typeof = "object")
    (h2 : a.isNull = false) : a.truthy = true ∧ a.instOfObject = true := by
  cases a <;>
    simp_all [JSVal.typeof, JSVal.isNull, JSVal.truthy, JSVal.instOfObject]

/-- A node satisfying the recursive invariant passes the one-level child
test of `createVirtualElement`. -/
theorem validNode_childCheck (v : JSVal) (h : validNode v = true) :
    childCheck v = true := by
  rw [validNode] at h
  simp only [Bool.and_eq_true, beq_iff_eq, Bool.not_eq_true'] at h
  obtain ⟨⟨⟨⟨⟨⟨⟨h1, h2⟩, h3⟩, h4⟩, h5⟩, h6⟩, h7⟩, h8⟩ := h
  have hattr := obj_truthy_inst (v.getProp "attributes") h5 h6
  unfold childCheck
  simp only [Bool.and_eq_true, beq_iff_eq, Bool.not_eq_true']
  split at h8
  next xs heq =>
    refine ⟨⟨⟨⟨⟨h1, h2⟩, h3⟩, ⟨hattr.1, hattr.2⟩⟩, ?_⟩, ?_⟩
    · rw [heq]
      rfl
    · rw [heq]
      rfl
  next =>
    exact absurd h8 (by simp)

/-- C3 (amended): `createVirtualElement` succeeds whenever its own four
arguments satisfy the specification's invariant and every direct child
satisfies the invariant recursively; it throws whenever any direct child
fails the one-level child test. Validation of children is one level deep,
so a malformed grandchild is not detected (see the counterexample). -/
theorem createVirtualElement_one_level
    (tag attributes innerText children : JSVal) :
    (rootArgsValid tag attributes innerText children = true →
      (∀ x ∈ children.asArr, validNode x = true) →
      ∃ r, createVirtualElement tag attributes innerText children = .ok r)
    ∧ (∀ x ∈ children.asArr, childCheck x = false →
        ∃ msg,
          createVirtualElement tag attributes innerText children
            = .error msg) := by
  constructor
  · intro hroot hkids
    unfold rootArgsValid at hroot
    simp only [Bool.and_eq_true, beq_iff_eq, Bool.not_eq_true',
      Bool.or_eq_true] at hroot
    obtain ⟨⟨⟨⟨⟨r1, r2⟩, r3⟩, r4⟩, r5⟩, r6⟩ := hroot
    have hattr := obj_truthy_inst attributes r3 r4
    have hitv : innerText = .vundef ∨ innerText.typeof = "string" := by
      rcases r5 with r5 | r5
      · left
        cases innerText <;> first | rfl | simp [JSVal.isUndef] at r5
      · right
        exact r5
    have htext : (innerText.truthy && !(innerText.typeof == "string"))
        = false := by
      rcases hitv with hv | hv
      · rw [hv]
        rfl
      · simp [hv]
    have hctruthy : children.truthy = true := by
      cases children <;> first | rfl | simp [JSVal.isArr] at r6
    have hall : children.asArr.all childCheck = true := by
      rw [List.all_eq_true]
      intro x hx
      exact validNode_childCheck x (hkids x hx)
    have c1 : (!tag.truthy || tag.typeof != "string") = false := by
      simp [r1, r2]
    have c2 : (!attributes.truthy || attributes.typeof != "object"
        || attributes.isNull) = false := by
      simp [r3, r4, hattr.1]
    have c4 : (!children.truthy || !children.isArr) = false := by
      simp [hctruthy, r6]
    refine ⟨.vobj [("tag", tag), ("attributes", attributes),
      ("innerText", innerText), ("children", children)], ?_⟩
    unfold createVirtualElement
    simp [c1, c2, htext, c4, hall]
    intro ht
    rcases hitv with hv | hv
    · rw [hv] at ht
      exact Bool.noConfusion ht
    · exact hv
  · intro x hx hbad
    cases hres : createVirtualElement tag attributes innerText children with
    | error msg => exact ⟨msg, rfl⟩
    | ok r =>
        exfalso
        unfold createVirtualElement at hres
        split at hres
        · exact Except.noConfusion hres
        split at hres
        · exact Except.noConfusion hres
        split at hres
        · exact Except.noConfusion hres
        split at hres
        · exact Except.noConfusion hres
        split at hres
        next hall =>
          rw [List.all_eq_true] at hall
          have hcx := hall x hx
          rw [hbad] at hcx
          exact Bool.noConfusion hcx
        next =>
          exact Except.noConfusion hres

/-- A grandchild violating the invariant: its `tag` is the number 42 and
it has no `children` array at all. -/
def badGrandchild : JSVal := .vobj [("tag", .vnum 42)]

/-- A well-formed direct child carrying the malformed grandchild. -/
def midChild : JSVal :=
  .vobj [("tag", .vstr "div"), ("attributes", .vobj []),
         ("children", .varr [badGrandchild])]

/-- A well-formed leaf node. -/
def goodLeaf : JSVal :=
  .vobj [("tag", .vstr "li"), ("attributes", .vobj []),
         ("children", .varr [])]

/-- Counterexample to C3 as stated: the tree rooted at a valid "div"
whose grandchild has a numeric tag (violating the structural invariant at
depth two) constructs successfully — `createVirtualElement` does not
apply the child validation recursively. -/
theorem createVirtualElement_misses_grandchild :
    (badGrandchild.getProp "tag").typeof = "number"
    ∧ validNode badGrandchild = false
    ∧ validNode midChild = false
    ∧ createVirtualElement (.vstr "div") (.vobj []) .vundef
        (.varr [midChild])
      = .ok (.vobj [("tag", .vstr "div"), ("attributes", .vobj []),
          ("innerText", .vundef), ("children", .varr [midChild])]) := by
  have hbg : validNode badGrandchild = false := by
    rw [validNode.eq_def]
    simp [badGrandchild, JSVal.getProp, sLookup, JSVal.typeof]
  refine ⟨rfl, hbg, ?_, rfl⟩
  rw [validNode.eq_def]
  have hch : midChild.getProp "children" = .varr [badGrandchild] := rfl
  rw [hch]
  simp [validNodes, hbg]

/-- Witness for the amended C3: a fully valid one-child tree constructs,
and a tree whose direct child is `null` throws. -/
theorem createVirtualElement_one_level_witness :
    (∃ r, createVirtualElement (.vstr "ul")
        (.vobj [("class", .vstr "list")]) .vundef (.varr [goodLeaf])
        = .ok r)
    ∧ (∃ msg, createVirtualElement (.vstr "ul") (.vobj []) .vundef
        (.varr [.vnull]) = .error msg) := by
  constructor
  · refine (createVirtualElement_one_level (.vstr "ul")
      (.vobj [("class", .vstr "list")]) .vundef (.varr [goodLeaf])).1
      rfl ?_
    intro x hx
    simp [JSVal.asArr] at hx
    subst hx
    rw [validNode.eq_def]
    have hch : goodLeaf.getProp "children" = .varr [] := rfl
    rw [hch]
    simp [goodLeaf, validNodes, JSVal.getProp, sLookup, JSVal.typeof,
      JSVal.isNull, JSVal.truthy, JSVal.isUndef]
  · exact (createVirtualElement_one_level (.vstr "ul") (.vobj []) .vundef
      (.varr [.vnull])).2 .vnull (by simp [JSVal.asArr]) rfl

/-! ### Renderer evolution invariant

`RenderEvolves st stp touched` relates a renderer state to a later state
produced by part of a materialization pass: the store and the
notification counters are untouched, node ids only grow, every
pre-existing node other than the optional `touched` parent is unchanged,
and the bookkeeping grows by exactly the pass-trace suffix of fresh-node
registrations — the forward table reading as "last registration wins"
over that suffix. -/
def RenderEvolves (st stp : RenderSt) (touched : Option Nat) : Prop :=
  stp.store = st.store
  ∧ stp.listenerCalls = st.listenerCalls
  ∧ stp.callbackCalls = st.callbackCalls
  ∧ st.nextNode ≤ stp.nextNode
  ∧ (∀ n, n < st.nextNode → (∀ p, touched = some p → n ≠ p) →
      nLookup stp.nodes n = nLookup st.nodes n)
  ∧ ∃ suffix,
      stp.passLog = st.passLog ++ suffix
      ∧ (∀ kv ∈ suffix, st.nextNode ≤ kv.2 ∧ kv.2 < stp.nextNode)
      ∧ (∀ k, jLookup stp.virtualToDomMap k
          = oFirst (jLookup suffix.reverse k)
              (jLookup st.virtualToDomMap k))
      ∧ (∀ kv ∈ stp.virtualToDomMap,
          kv ∈ st.virtualToDomMap ∨ kv ∈ suffix)

theorem oFirst_assoc {α : Type} (a b c : Option α) :
    oFirst (oFirst a b) c = oFirst a (oFirst b c) := by
  cases a <;> simp [oFirst]

theorem RenderEvolves.refl (st : RenderSt) (touched : Option Nat) :
    RenderEvolves st st touched := by
  refine ⟨rfl, rfl, rfl, le_refl _, fun n _ _ => rfl, [], by simp, by simp,
    ?_, fun kv h => Or.inl h⟩
  intro k
  simp [jLookup, oFirst]

theorem RenderEvolves.trans {st1 st2 st3 : RenderSt} {t : Option Nat}
    (h12 : RenderEvolves st1 st2 t) (h23 : RenderEvolves st2 st3 t) :
    RenderEvolves st1 st3 t := by
  obtain ⟨a1, b1, c1, d1, e1, s1, l1, f1, m1, mem1⟩ := h12
  obtain ⟨a2, b2, c2, d2, e2, s2, l2, f2, m2, mem2⟩ := h23
  refine ⟨a2.trans a1, b2.trans b1, c2.trans c1, le_trans d1 d2, ?_,
    s1 ++ s2, ?_, ?_, ?_, ?_⟩
  · intro n hn hp
    rw [e2 n (lt_of_lt_of_le hn d1) hp]
    exact e1 n hn hp
  · rw [l2, l1, List.append_assoc]
  · intro kv hkv
    rcases List.mem_append.1 hkv with h | h
    · have := f1 kv h
      exact ⟨this.1, lt_of_lt_of_le this.2 d2⟩
    · have := f2 kv h
      exact ⟨le_trans d1 this.1, this.2⟩
  · intro k
    rw [m2 k, m1 k, List.reverse_append, jLookup_append, oFirst_assoc]
  · intro kv hkv
    rcases mem2 kv hkv with h | h
    · rcases mem1 kv h with h2 | h2
      · exact Or.inl h2
      · exact Or.inr (List.mem_append.2 (Or.inl h2))
    · exact Or.inr (List.mem_append.2 (Or.inr h))

theorem RenderEvolves.weaken {st stp : RenderSt} {t : Option Nat}
    (h : RenderEvolves st stp none) : RenderEvolves st stp t := by
  obtain ⟨a, b, c, d, e, s, l, f, m, mem⟩ := h
  exact ⟨a, b, c, d, fun n hn _ => e n hn (fun p hp => Option.noConfusion hp),
    s, l, f, m, mem⟩

/-- Composing a fresh-only evolution with one that may touch a node the
first evolution created. -/
theorem RenderEvolves.trans_out {st1 st2 st3 : RenderSt} {p : Nat}
    (h12 : RenderEvolves st1 st2 none)
    (h23 : RenderEvolves st2 st3 (some p)) (hp : st1.nextNode ≤ p) :
    RenderEvolves st1 st3 none := by
  obtain ⟨a1, b1, c1, d1, e1, s1, l1, f1, m1, mem1⟩ := h12
  obtain ⟨a2, b2, c2, d2, e2, s2, l2, f2, m2, mem2⟩ := h23
  refine ⟨a2.trans a1, b2.trans b1, c2.trans c1, le_trans d1 d2, ?_,
    s1 ++ s2, ?_, ?_, ?_, ?_⟩
  · intro n hn _
    have hnp : n ≠ p := by omega
    rw [e2 n (lt_of_lt_of_le hn d1) (fun q hq => by
      injection hq with hq
      omega)]
    exact e1 n hn (fun q hq => Option.noConfusion hq)
  · rw [l2, l1, List.append_assoc]
  · intro kv hkv
    rcases List.mem_append.1 hkv with h | h
    · have := f1 kv h
      exact ⟨this.1, lt_of_lt_of_le this.2 d2⟩
    · have := f2 kv h
      exact ⟨le_trans d1 this.1, this.2⟩
  · intro k
    rw [m2 k, m1 k, List.reverse_append, jLookup_append, oFirst_assoc]
  · intro kv hkv
    rcases mem2 kv hkv with h | h
    · rcases mem1 kv h with h2 | h2
      · exact Or.inl h2
      · exact Or.inr (List.mem_append.2 (Or.inl h2))
    · exact Or.inr (List.mem_append.2 (Or.inr h))

theorem modifyNode_evolves (st : RenderSt) (p : Nat) (f : DomNode → DomNode) :
    RenderEvolves st (modifyNode st p f) (some p) := by
  unfold modifyNode
  cases h : nLookup st.nodes p with
  | none => exact RenderEvolves.refl st (some p)
  | some nd =>
      refine ⟨rfl, rfl, rfl, le_refl _, ?_, [], by simp, by simp, ?_,
        fun kv h => Or.inl h⟩
      · intro n _ hp
        exact nLookup_nSet_other st.nodes p n (f nd) (hp p rfl)
      · intro k
        simp [jLookup, oFirst]

theorem modifyNode_passLog (st : RenderSt) (p : Nat) (f : DomNode → DomNode) :
    (modifyNode st p f).passLog = st.passLog := by
  unfold modifyNode
  cases nLookup st.nodes p <;> rfl

theorem foldl_modifyNode_evolves (l : List (String × JSVal)) (p : Nat)
    (g : DomNode → String → JSVal → DomNode) : ∀ (st : RenderSt),
    RenderEvolves st
      (l.foldl (fun s kv => modifyNode s p fun nd => g nd kv.1 kv.2) st)
      (some p) := by
  induction l with
  | nil => intro st; exact RenderEvolves.refl st (some p)
  | cons kv rest ih =>
      intro st
      exact RenderEvolves.trans
        (modifyNode_evolves st p fun nd => g nd kv.1 kv.2)
        (ih (modifyNode st p fun nd => g nd kv.1 kv.2))

theorem foldl_modifyNode_passLog (l : List (String × JSVal)) (p : Nat)
    (g : DomNode → String → JSVal → DomNode) : ∀ (st : RenderSt),
    (l.foldl (fun s kv => modifyNode s p fun nd => g nd kv.1 kv.2) st).passLog
      = st.passLog := by
  induction l with
  | nil => intro st; rfl
  | cons kv rest ih =>
      intro st
      rw [List.foldl_cons, ih, modifyNode_passLog]

theorem modifyNode_nextNode (st : RenderSt) (p : Nat) (f : DomNode → DomNode) :
    (modifyNode st p f).nextNode = st.nextNode := by
  unfold modifyNode
  cases nLookup st.nodes p <;> rfl

theorem foldl_modifyNode_nextNode (l : List (String × JSVal)) (p : Nat)
    (g : DomNode → String → JSVal → DomNode) : ∀ (st : RenderSt),
    (l.foldl (fun s kv => modifyNode s p fun nd => g nd kv.1 kv.2) st).nextNode
      = st.nextNode := by
  induction l with
  | nil => intro st; rfl
  | cons kv rest ih =>
      intro st
      rw [List.foldl_cons, ih, modifyNode_nextNode]

/-- The bookkeeping registration step of `elementToHtmlElement`, seen as
an evolution: one fresh node allocated, one pass-trace entry appended,
the forward table updated at the element's id, both bookkeeping tables
written, nothing pre-existing touched. -/
theorem register_evolves (elem : JSVal) (st : RenderSt) :
    RenderEvolves st (registeredState elem st) none := by
  unfold registeredState
  refine ⟨rfl, rfl, rfl, by simp, ?_,
    [(elem.getProp "id", st.nextNode)], rfl, ?_, ?_, ?_⟩
  · intro n hn2 _
    exact nLookup_nSet_other st.nodes st.nextNode n _ (by omega)
  · intro kv hkv
    simp at hkv
    subst hkv
    simp
  · intro k
    rw [jLookup_jSet]
    by_cases hs : JSVal.sameValueZero (elem.getProp "id") k
    · simp [hs, jLookup, oFirst]
    · simp [hs, jLookup, oFirst]
  · intro kv hkv
    rcases jSet_mem st.virtualToDomMap (elem.getProp "id") st.nextNode kv hkv
      with h | h
    · exact Or.inl h
    · subst h
      simp

/-- Up to the optional `innerText` write, materialization is a fresh-only
evolution. -/
theorem midState_evolves (elem : JSVal) (st : RenderSt) :
    RenderEvolves st (midState elem st) none := by
  unfold midState
  by_cases hit : (elem.getProp "innerText").truthy
  · rw [if_pos hit]
    exact RenderEvolves.trans_out (register_evolves elem st)
      (modifyNode_evolves _ _ _) (le_refl _)
  · rw [if_neg hit]
    exact register_evolves elem st

/-- Up to the end of the attribute loop, materialization is a fresh-only
evolution. -/
theorem attrState_evolves (elem : JSVal) (st : RenderSt) :
    RenderEvolves st (attrState elem st) none := by
  unfold attrState
  exact RenderEvolves.trans_out (midState_evolves elem st)
    (foldl_modifyNode_evolves _ _ _ _) (le_refl _)

theorem registeredState_nextNode (elem : JSVal) (st : RenderSt) :
    (registeredState elem st).nextNode = st.nextNode + 1 := rfl

theorem midState_nextNode (elem : JSVal) (st : RenderSt) :
    (midState elem st).nextNode = st.nextNode + 1 := by
  unfold midState
  by_cases hit : (elem.getProp "innerText").truthy
  · rw [if_pos hit, modifyNode_nextNode, registeredState_nextNode]
  · rw [if_neg hit, registeredState_nextNode]

theorem attrState_nextNode (elem : JSVal) (st : RenderSt) :
    (attrState elem st).nextNode = st.nextNode + 1 := by
  unfold attrState
  rw [foldl_modifyNode_nextNode, midState_nextNode]

theorem midState_passLog (elem : JSVal) (st : RenderSt) :
    (midState elem st).passLog
      = st.passLog ++ [(elem.getProp "id", st.nextNode)] := by
  unfold midState
  by_cases hit : (elem.getProp "innerText").truthy
  · rw [if_pos hit, modifyNode_passLog]
    rfl
  · rw [if_neg hit]
    rfl

theorem attrState_passLog (elem : JSVal) (st : RenderSt) :
    (attrState elem st).passLog
      = st.passLog ++ [(elem.getProp "id", st.nextNode)] := by
  unfold attrState
  rw [foldl_modifyNode_passLog, midState_passLog]

set_option maxHeartbeats 1000000 in
/-- Main invariant of materialization: `elementToHtmlElement` evolves the
renderer state touching only fresh nodes (the store, the notification
counters and all pre-existing nodes are untouched, and the bookkeeping
grows by exactly this call's fresh registrations), returning, on success,
the node id allocated at entry; `appendChildren` does the same except
that it also appends to the given parent node. -/
theorem renderer_evolves :
    (∀ (elem : JSVal) (st : RenderSt),
      RenderEvolves st (elementToHtmlElement elem st).1 none
      ∧ ∀ nid, (elementToHtmlElement elem st).2 = .ok nid →
          nid = st.nextNode)
    ∧ (∀ (xs : List JSVal) (parent : Nat) (st : RenderSt),
      RenderEvolves st (appendChildren xs parent st).1 (some parent)) := by
  refine elementToHtmlElement.mutual_induct _ _ ?c1 ?c2 ?c3 ?c4 ?c5 ?c6 ?c7 ?c8 ?c9
  case c1 =>
    intro elem st h1
    have he : elementToHtmlElement elem st
        = (st, .error "Error: elem is not an object") := by
      rw [elementToHtmlElement.eq_def]
      simp [h1]
    rw [he]
    exact ⟨RenderEvolves.refl st none, fun nid h => Except.noConfusion h⟩
  case c2 =>
    intro elem st h1 h2
    have he : elementToHtmlElement elem st
        = (st, .error "TypeError: cannot read properties of null") := by
      rw [elementToHtmlElement.eq_def]
      simp [h1, h2]
    rw [he]
    exact ⟨RenderEvolves.refl st none, fun nid h => Except.noConfusion h⟩
  case c3 =>
    intro elem st h1 h2
    simp only []
    intro hattr
    have he : elementToHtmlElement elem st
        = (midState elem st,
           .error "Error: elem.attributes is not a plain object") := by
      rw [elementToHtmlElement.eq_def]
      simp only [h1, h2, hattr, Bool.false_eq_true, if_false, if_true,
        Bool.not_eq_true]
    rw [he]
    exact ⟨midState_evolves elem st, fun nid h => Except.noConfusion h⟩
  case c4 =>
    intro elem st h1 h2
    simp only []
    intro hattr xs hch stE e happ ih
    have he : elementToHtmlElement elem st = (stE, Except.error e) := by
      rw [elementToHtmlElement.eq_def]
      simp only [h1, h2, hattr, Bool.false_eq_true, if_false, if_true,
        Bool.not_eq_true]
      split
      case h_1 xs2 hv =>
        rw [hch] at hv
        injection hv with hx
        subst hx
        rw [happ]
      case h_2 hcon =>
        exact (hcon xs hch).elim
    rw [he]
    simp only [happ] at ih
    refine ⟨RenderEvolves.trans_out (attrState_evolves elem st) ih
      (le_refl _), fun nid h => Except.noConfusion h⟩
  case c5 =>
    intro elem st h1 h2
    simp only []
    intro hattr xs hch stE a happ ih
    have he : elementToHtmlElement elem st = (stE, Except.ok st.nextNode) := by
      rw [elementToHtmlElement.eq_def]
      simp only [h1, h2, hattr, Bool.false_eq_true, if_false, if_true,
        Bool.not_eq_true]
      split
      case h_1 xs2 hv =>
        rw [hch] at hv
        injection hv with hx
        subst hx
        rw [happ]
      case h_2 hcon =>
        exact (hcon xs hch).elim
    rw [he]
    simp only [happ] at ih
    refine ⟨RenderEvolves.trans_out (attrState_evolves elem st) ih
      (le_refl _), ?_⟩
    intro nid h
    injection h with h
    exact h.symm
  case c6 =>
    intro elem st h1 h2
    simp only []
    intro hattr hnone
    have he : elementToHtmlElement elem st
        = (attrState elem st,
           .error "TypeError: elem.children.forEach is not a function") := by
      rw [elementToHtmlElement.eq_def]
      simp only [h1, h2, hattr, Bool.false_eq_true, if_false, if_true,
        Bool.not_eq_true]
    rw [he]
    exact ⟨attrState_evolves elem st, fun nid h => Except.noConfusion h⟩
  case c7 =>
    intro parent st
    have he : appendChildren [] parent st = (st, .ok ()) := by
      rw [appendChildren.eq_def]
    rw [he]
    exact RenderEvolves.refl st (some parent)
  case c8 =>
    intro parent st x rest st1 e hx ihx
    have he : appendChildren (x :: rest) parent st = (st1, .error e) := by
      rw [appendChildren.eq_def]
      simp [hx]
    rw [he]
    rw [hx] at ihx
    exact RenderEvolves.weaken ihx.1
  case c9 =>
    intro parent st x rest st1 cid hx ihx ihrest
    have he : appendChildren (x :: rest) parent st
        = appendChildren rest parent
            (modifyNode st1 parent fun nd =>
              { nd with children := nd.children ++ [cid] }) := by
      rw [appendChildren.eq_def]
      simp [hx]
    rw [he]
    have hs1 : RenderEvolves st st1 (some parent) := by
      have := ihx.1
      rw [hx] at this
      exact RenderEvolves.weaken this
    have hs2 := modifyNode_evolves st1 parent
      (fun nd => { nd with children := nd.children ++ [cid] })
    exact RenderEvolves.trans (RenderEvolves.trans hs1 hs2) ihrest

/-- The children list of a live node (empty for a node id not in the
heap). -/
def nodeChildren (st : RenderSt) (n : Nat) : List Nat :=
  ((nLookup st.nodes n).map DomNode.children).getD []

theorem attachLoop_evolves (xs : List JSVal) (topElement : Nat) :
    ∀ (st : RenderSt),
    RenderEvolves st (attachLoop xs topElement st).1 (some topElement) := by
  induction xs with
  | nil => intro st; exact RenderEvolves.refl st (some topElement)
  | cons e rest ih =>
      intro st
      unfold attachLoop
      cases he : elementToHtmlElement e st with
      | mk st1 r =>
          have hev : RenderEvolves st st1 (some topElement) := by
            have := (renderer_evolves.1 e st).1
            rw [he] at this
            exact RenderEvolves.weaken this
          cases r with
          | error msg => exact hev
          | ok nid =>
              exact RenderEvolves.trans
                (RenderEvolves.trans hev (modifyNode_evolves st1 topElement _))
                (ih _)

/-- On success, the top-level append loop adds exactly one fresh node id
per element to the container's child list. -/
theorem attachLoop_children (xs : List JSVal) (topElement : Nat) :
    ∀ (st : RenderSt), topElement < st.nextNode →
    (nLookup st.nodes topElement).isSome = true →
    (attachLoop xs topElement st).2 = .ok () →
    ∃ ids, (∀ i ∈ ids, st.nextNode ≤ i)
      ∧ nodeChildren (attachLoop xs topElement st).1 topElement
          = nodeChildren st topElement ++ ids
      ∧ ids.length = xs.length := by
  induction xs with
  | nil =>
      intro st _ _ _
      exact ⟨[], by simp, by simp [attachLoop], by simp⟩
  | cons e rest ih =>
      intro st htop hex hok
      unfold attachLoop at hok ⊢
      cases he : elementToHtmlElement e st with
      | mk st1 r =>
          rw [he] at hok
          have hev : RenderEvolves st st1 none := by
            have h0 := (renderer_evolves.1 e st).1
            rw [he] at h0
            exact h0
          cases r with
          | error msg => exact absurd hok (by simp)
          | ok nid =>
              have hnid : nid = st.nextNode := by
                have h0 := (renderer_evolves.1 e st).2 nid
                rw [he] at h0
                exact h0 rfl
              obtain ⟨_, _, _, hmono, hnodes, _⟩ := hev
              have hkeep : nLookup st1.nodes topElement
                  = nLookup st.nodes topElement :=
                hnodes topElement htop (fun p hp => Option.noConfusion hp)
              obtain ⟨nd, hnd⟩ := Option.isSome_iff_exists.1 hex
              have hnd1 : nLookup st1.nodes topElement = some nd := by
                rw [hkeep]
                exact hnd
              have hst2nodes : nLookup (modifyNode st1 topElement
                  (fun nd => { nd with children := nd.children ++ [nid] })).nodes
                    topElement
                  = some { nd with children := nd.children ++ [nid] } := by
                unfold modifyNode
                rw [hnd1]
                exact nLookup_nSet_self st1.nodes topElement _
              have htop2 : topElement < (modifyNode st1 topElement
                  (fun nd => { nd with children := nd.children ++ [nid] })).nextNode := by
                rw [modifyNode_nextNode]
                omega
              have hex2 : (nLookup (modifyNode st1 topElement
                  (fun nd => { nd with children := nd.children ++ [nid] })).nodes
                    topElement).isSome = true := by
                rw [hst2nodes]
                rfl
              obtain ⟨ids, hfresh, hchild, hlen⟩ := ih _ htop2 hex2 hok
              refine ⟨nid :: ids, ?_, ?_, by simp [hlen]⟩
              · intro i hi
                rcases List.mem_cons.1 hi with hi | hi
                · omega
                · have hf := hfresh i hi
                  rw [modifyNode_nextNode] at hf
                  omega
              · have hstep : nodeChildren (modifyNode st1 topElement
                    (fun nd => { nd with children := nd.children ++ [nid] }))
                      topElement
                    = nodeChildren st topElement ++ [nid] := by
                  unfold nodeChildren
                  rw [hst2nodes, hnd]
                  simp
                have hfin : nodeChildren st topElement ++ [nid] ++ ids
                    = nodeChildren st topElement ++ (nid :: ids) := by
                  simp
                exact hchild.trans (by rw [hstep, hfin])

theorem modifyNode_store (st : RenderSt) (p : Nat) (f : DomNode → DomNode) :
    (modifyNode st p f).store = st.store := by
  unfold modifyNode
  cases nLookup st.nodes p <;> rfl

theorem modifyNode_counters (st : RenderSt) (p : Nat) (f : DomNode → DomNode) :
    (modifyNode st p f).listenerCalls = st.listenerCalls
    ∧ (modifyNode st p f).callbackCalls = st.callbackCalls := by
  unfold modifyNode
  cases nLookup st.nodes p <;> exact ⟨rfl, rfl⟩

/-- The renderer state `updateDom` reaches just before the append loop,
in derived form (see `updateDom_passes`): bookkeeping and pass trace
cleared, the tree and container silently merged into the store, and the
container node emptied (`innerHTML = ""`). -/
def clearedState (topElement : Nat) (attachElements : JSVal)
    (st : RenderSt) : RenderSt :=
  modifyNode
    { nextNode := st.nextNode, nodes := st.nodes,
      virtualToDomMap := [],
      domToVirtualMap := st.domToVirtualMap,
      store := ⟨spreadMerge st.store.state
        [("vDOM", attachElements), ("topElement", .vnode topElement)],
        st.store.listeners, st.store.updateCallback⟩,
      listenerCalls := st.listenerCalls,
      callbackCalls := st.callbackCalls,
      passLog := [] }
    topElement (fun nd => { nd with text := "", children := [] })

theorem clearedState_nextNode (topElement : Nat) (attachElements : JSVal)
    (st : RenderSt) :
    (clearedState topElement attachElements st).nextNode = st.nextNode := by
  unfold clearedState
  rw [modifyNode_nextNode]

theorem clearedState_store (topElement : Nat) (attachElements : JSVal)
    (st : RenderSt) :
    (clearedState topElement attachElements st).store
      = ⟨spreadMerge st.store.state
          [("vDOM", attachElements), ("topElement", .vnode topElement)],
          st.store.listeners, st.store.updateCallback⟩ := by
  unfold clearedState
  rw [modifyNode_store]

theorem clearedState_counters (topElement : Nat) (attachElements : JSVal)
    (st : RenderSt) :
    (clearedState topElement attachElements st).listenerCalls
        = st.listenerCalls
    ∧ (clearedState topElement attachElements st).callbackCalls
        = st.callbackCalls := by
  unfold clearedState
  exact modifyNode_counters _ _ _

theorem clearedState_container (topElement : Nat) (attachElements : JSVal)
    (st : RenderSt) (hex : (nLookup st.nodes topElement).isSome = true) :
    (nLookup (clearedState topElement attachElements st).nodes
        topElement).isSome = true
    ∧ nodeChildren (clearedState topElement attachElements st) topElement
        = [] := by
  obtain ⟨nd, hnd⟩ := Option.isSome_iff_exists.1 hex
  unfold clearedState modifyNode
  simp only [hnd]
  constructor
  · rw [nLookup_nSet_self]
    rfl
  · unfold nodeChildren
    rw [nLookup_nSet_self]
    rfl

/-- Normal form of `updateDom` once both validations pass: a silent store
write, cleared bookkeeping, cleared container, then the append loop. -/
theorem updateDom_passes (topElement : Nat) (attachElements : JSVal)
    (st : RenderSt)
    (hv1 : ¬(!attachElements.truthy || !attachElements.isArr) = true)
    (hv2 : ¬(!(attachElements.asArr.all fun e => e.typeof == "object"))
      = true) :
    updateDom topElement attachElements st
      = attachLoop attachElements.asArr topElement
          (clearedState topElement attachElements st) := by
  unfold updateDom clearedState
  simp only [hv1, hv2, Bool.false_eq_true, if_false, Bool.not_eq_true]
  rw [State.setState_obj st.store
    (JSVal.vobj [("vDOM", attachElements), ("topElement", JSVal.vnode topElement)])
    false rfl rfl]
  simp [objEntries]

/-- C2: a full render performed by `updateDom` invokes zero listeners and
never invokes the update callback — its store write uses
`setState(..., false)` and materialization never touches the store — so a
render pass cannot re-enter the render cycle through the store. When the
input validation passes, the write is visible: the produced tree and the
container reference sit in the store, with the listener list and the
update-callback slot untouched. -/
theorem updateDom_silent (topElement : Nat) (attachElements : JSVal)
    (st : RenderSt) :
    (updateDom topElement attachElements st).1.listenerCalls
      = st.listenerCalls
    ∧ (updateDom topElement attachElements st).1.callbackCalls
      = st.callbackCalls
    ∧ (attachElements.truthy = true → attachElements.isArr = true →
        (attachElements.asArr.all fun e => e.typeof == "object") = true →
        sLookup (updateDom topElement attachElements st).1.store.state "vDOM"
            = some attachElements
        ∧ sLookup (updateDom topElement attachElements st).1.store.state
            "topElement" = some (.vnode topElement)
        ∧ (updateDom topElement attachElements st).1.store.listeners
            = st.store.listeners
        ∧ (updateDom topElement attachElements st).1.store.updateCallback
            = st.store.updateCallback) := by
  by_cases hv1 : (!attachElements.truthy || !attachElements.isArr) = true
  · have he : updateDom topElement attachElements st
        = (st, .error "Error: attachElements is not an array") := by
      unfold updateDom
      simp [hv1]
    rw [he]
    refine ⟨rfl, rfl, ?_⟩
    intro ht hia
    simp [ht, hia] at hv1
  · by_cases hv2 : (!(attachElements.asArr.all fun e => e.typeof == "object"))
        = true
    · have he : updateDom topElement attachElements st
          = (st, .error "Error: element is not an object") := by
        unfold updateDom
        simp [hv1, hv2]
      rw [he]
      refine ⟨rfl, rfl, ?_⟩
      intro _ _ hall
      simp [hall] at hv2
    · have he := updateDom_passes topElement attachElements st hv1 hv2
      rw [he]
      have hev := attachLoop_evolves attachElements.asArr topElement
        (clearedState topElement attachElements st)
      obtain ⟨hstore, hlc, hcc, _⟩ := hev
      rw [clearedState_store] at hstore
      have hcnt := clearedState_counters topElement attachElements st
      rw [hlc, hcnt.1, hcc, hcnt.2]
      refine ⟨rfl, rfl, ?_⟩
      intro _ _ _
      rw [hstore]
      refine ⟨?_, ?_, rfl, rfl⟩
      · exact spreadMerge_lookup_override rfl
      · exact spreadMerge_lookup_override rfl

/-- A container node standing for `document.body`. -/
def demoContainer : DomNode := ⟨"body", "", [], false, [], []⟩

/-- A well-formed paragraph element as produced by
`createVirtualElement`. -/
def pElem : JSVal :=
  .vobj [("tag", .vstr "p"), ("attributes", .vobj []),
         ("children", .varr [])]

/-- A renderer state with one container node, a store holding one
listener and a set update callback. -/
def demoSt : RenderSt :=
  ⟨1, [(0, demoContainer)], [], [], ⟨[], [5], some 9⟩, 0, 0, []⟩

/-- Witness for C2: rendering one paragraph into the demo container
leaves both notification counters at zero, stores the tree and the
container reference, and leaves the listener list and callback slot
unchanged. -/
theorem updateDom_silent_witness :
    (updateDom 0 (.varr [pElem]) demoSt).1.listenerCalls = 0
    ∧ (updateDom 0 (.varr [pElem]) demoSt).1.callbackCalls = 0
    ∧ sLookup (updateDom 0 (.varr [pElem]) demoSt).1.store.state "vDOM"
        = some (.varr [pElem])
    ∧ sLookup (updateDom 0 (.varr [pElem]) demoSt).1.store.state "topElement"
        = some (.vnode 0)
    ∧ (updateDom 0 (.varr [pElem]) demoSt).1.store.listeners = [5]
    ∧ (updateDom 0 (.varr [pElem]) demoSt).1.store.updateCallback = some 9 := by
  have h := updateDom_silent 0 (.varr [pElem]) demoSt
  have hc := h.2.2 rfl rfl rfl
  exact ⟨h.1.trans rfl, h.2.1.trans rfl, hc.1, hc.2.1,
    hc.2.2.1.trans rfl, hc.2.2.2.trans rfl⟩

/-- C1 (amended): `updateDom`'s own validation failures occur before any
document mutation — when `attachElements` is not a truthy array, or some
element is not an object (by `typeof`), the call throws with the renderer
state completely untouched. When the call succeeds, the container's
content is fully replaced: its children become exactly one fresh node per
element, none carried over from before the call. An error thrown during
materialization, however, occurs after the container has already been
cleared, so a failing render pass can leave the container empty or
partially filled rather than as the last successful render left it (see
the counterexample). -/
theorem updateDom_validation (topElement : Nat) (attachElements : JSVal)
    (st : RenderSt) :
    ((!attachElements.truthy || !attachElements.isArr) = true →
      updateDom topElement attachElements st
        = (st, .error "Error: attachElements is not an array"))
    ∧ (¬(!attachElements.truthy || !attachElements.isArr) = true →
       (!(attachElements.asArr.all fun e => e.typeof == "object")) = true →
      updateDom topElement attachElements st
        = (st, .error "Error: element is not an object"))
    ∧ (topElement < st.nextNode →
       (nLookup st.nodes topElement).isSome = true →
       (updateDom topElement attachElements st).2 = .ok () →
       ∃ ids,
         nodeChildren (updateDom topElement attachElements st).1 topElement
           = ids
         ∧ (∀ i ∈ ids, st.nextNode ≤ i)
         ∧ ids.length = attachElements.asArr.length) := by
  have hrej1 : (!attachElements.truthy || !attachElements.isArr) = true →
      updateDom topElement attachElements st
        = (st, .error "Error: attachElements is not an array") := by
    intro hv1
    unfold updateDom
    simp [hv1]
  have hrej2 : ¬(!attachElements.truthy || !attachElements.isArr) = true →
      (!(attachElements.asArr.all fun e => e.typeof == "object")) = true →
      updateDom topElement attachElements st
        = (st, .error "Error: element is not an object") := by
    intro hv1 hv2
    unfold updateDom
    simp [hv1, hv2]
  refine ⟨hrej1, hrej2, ?_⟩
  intro htop hex hok
  by_cases hv1 : (!attachElements.truthy || !attachElements.isArr) = true
  · rw [hrej1 hv1] at hok
    exact absurd hok (by simp)
  · by_cases hv2 : (!(attachElements.asArr.all fun e => e.typeof == "object"))
        = true
    · rw [hrej2 hv1 hv2] at hok
      exact absurd hok (by simp)
    · have he := updateDom_passes topElement attachElements st hv1 hv2
      rw [he] at hok ⊢
      have hcont := clearedState_container topElement attachElements st hex
      have htopC : topElement
          < (clearedState topElement attachElements st).nextNode := by
        rw [clearedState_nextNode]
        exact htop
      obtain ⟨ids, hfresh, hchild, hlen⟩ :=
        attachLoop_children attachElements.asArr topElement
          (clearedState topElement attachElements st) htopC hcont.1 hok
      refine ⟨ids, ?_, ?_, hlen⟩
      · rw [hchild, hcont.2]
        simp
      · intro i hi
        have hf := hfresh i hi
        rw [clearedState_nextNode] at hf
        exact hf

/-- A container currently holding one child, as left by a previous
successful render. -/
def bodyWithChild : DomNode := ⟨"body", "", [], false, [], [1]⟩
/-- The content of the last successful render. -/
def oldParagraph : DomNode := ⟨"p", "old", [], false, [], []⟩
/-- A renderer state as left by a successful full render. -/
def renderedSt : RenderSt :=
  ⟨2, [(0, bodyWithChild), (1, oldParagraph)], [], [], ⟨[], [], none⟩, 0, 0, []⟩
/-- An element that passes `updateDom`'s validation (it is an object) but
makes `elementToHtmlElement` throw: its `attributes` is null. -/
def badAttrElem : JSVal :=
  .vobj [("tag", .vstr "div"), ("attributes", .vnull), ("children", .varr [])]

/-- Counterexample to C1 as stated: rendering `[badAttrElem]` into a
container holding the previous render's paragraph throws (from
`elementToHtmlElement`, after validation), yet the container has been
emptied — the document is not left as the last successful full render
left it, so a failing pass is not atomic. -/
theorem updateDom_not_atomic :
    nodeChildren renderedSt 0 = [1]
    ∧ (updateDom 0 (.varr [badAttrElem]) renderedSt).2
        = .error "Error: elem.attributes is not a plain object"
    ∧ nodeChildren (updateDom 0 (.varr [badAttrElem]) renderedSt).1 0 = [] := by
  refine ⟨rfl, ?_, ?_⟩ <;>
    simp [updateDom, attachLoop, elementToHtmlElement, registeredState,
      midState, attrState, modifyNode, nSet, nLookup, nodeChildren,
      State.setState, State.update, spreadMerge, objEntries, sLookup, jSet,
      applyAttr, toStr, renderedSt, badAttrElem, bodyWithChild, oldParagraph,
      JSVal.typeof, JSVal.truthy, JSVal.isNull, JSVal.isArr, JSVal.getProp,
      JSVal.asArr]

/-- Witness for the amended C1: both validation failures return with the
state untouched, and a successful render of one paragraph leaves exactly
one fresh node in the container. -/
theorem updateDom_validation_witness :
    (updateDom 0 (.vnum 3) demoSt
      = (demoSt, .error "Error: attachElements is not an array"))
    ∧ (updateDom 0 (.varr [.vnum 3]) demoSt
      = (demoSt, .error "Error: element is not an object"))
    ∧ (∃ ids, nodeChildren (updateDom 0 (.varr [pElem]) demoSt).1 0 = ids
        ∧ (∀ i ∈ ids, demoSt.nextNode ≤ i)
        ∧ ids.length = 1) := by
  have hok : (updateDom 0 (.varr [pElem]) demoSt).2 = .ok () := by
    simp [updateDom, attachLoop, elementToHtmlElement, appendChildren,
      registeredState, midState, attrState, modifyNode, nSet, nLookup,
      State.setState, State.update, spreadMerge, objEntries, sLookup, jSet,
      applyAttr, toStr, demoSt, pElem, demoContainer,
      JSVal.typeof, JSVal.truthy, JSVal.isNull, JSVal.isArr, JSVal.getProp,
      JSVal.asArr]
  obtain ⟨ids, h1, h2, h3⟩ :=
    (updateDom_validation 0 (.varr [pElem]) demoSt).2.2 (by decide) rfl hok
  exact ⟨(updateDom_validation 0 (.vnum 3) demoSt).1 rfl,
    (updateDom_validation 0 (.varr [.vnum 3]) demoSt).2.1 (by decide) rfl,
    ids, h1, h2, h3.trans rfl⟩


theorem modifyNode_vmap (st : RenderSt) (p : Nat) (f : DomNode → DomNode) :
    (modifyNode st p f).virtualToDomMap = st.virtualToDomMap := by
  unfold modifyNode
  cases nLookup st.nodes p <;> rfl

theorem clearedState_maps (topElement : Nat) (attachElements : JSVal)
    (st : RenderSt) :
    (clearedState topElement attachElements st).virtualToDomMap = []
    ∧ (clearedState topElement attachElements st).passLog = [] := by
  unfold clearedState
  rw [modifyNode_vmap, modifyNode_passLog]
  exact ⟨rfl, rfl⟩

/-- `elementToHtmlElement` writes its own bookkeeping entry — keyed by
`elem.id`, valued at the node allocated at entry — before anything from
the children's recursion appears in the pass trace. -/
theorem eth_registers_first (elem : JSVal) (st : RenderSt)
    (h1 : elem.typeof = "object") (h2 : elem.isNull = false) :
    ∃ rest, (elementToHtmlElement elem st).1.passLog
      = st.passLog ++ (elem.getProp "id", st.nextNode) :: rest := by
  have hb1 : (elem.typeof != "object") = false := by simp [h1]
  rw [elementToHtmlElement.eq_def]
  simp only [hb1, h2, Bool.false_eq_true, if_false]
  by_cases hattr : (!(elem.getProp "attributes").truthy
      || (elem.getProp "attributes").typeof != "object"
      || (elem.getProp "attributes").isNull
      || (elem.getProp "attributes").isArr) = true
  · simp only [hattr, if_true]
    exact ⟨[], by rw [midState_passLog]⟩
  · simp only [hattr, Bool.false_eq_true, if_false]
    split
    next xs hv =>
      cases happ : appendChildren xs st.nextNode (attrState elem st) with
      | mk st2 r =>
          have hev := renderer_evolves.2 xs st.nextNode (attrState elem st)
          rw [happ] at hev
          obtain ⟨_, _, _, _, _, suffix, hlog, _, _, _⟩ := hev
          rw [attrState_passLog] at hlog
          cases r with
          | error e =>
              refine ⟨suffix, ?_⟩
              simp only []
              rw [hlog]
              simp
          | ok a =>
              refine ⟨suffix, ?_⟩
              simp only []
              rw [hlog]
              simp
    next hcon =>
      exact ⟨[], by rw [attrState_passLog]⟩

/-- C9 (amended): materialization registers each created node (in both
bookkeeping tables, traced in the pass log keyed by `elem.id`) before any
registration from its children's recursion, and `updateDom` clears the
strong forward table at the start of the pass, so after a full render the
table holds only entries of the current generation: reading it at any key
gives exactly the last registration of that key in the pass trace, and
every table entry is one of the pass's registrations. Because the key is
`elem.id` — undefined for every element `createVirtualElement` builds —
elements sharing an identity collapse to one entry, so the table maps
each element's identity to its own node only when identities are
pairwise distinct (see the counterexample). -/
theorem bookkeeping_contract :
    (∀ (elem : JSVal) (st : RenderSt),
      elem.typeof = "object" → elem.isNull = false →
      ∃ rest, (elementToHtmlElement elem st).1.passLog
        = st.passLog ++ (elem.getProp "id", st.nextNode) :: rest)
    ∧ (∀ (topElement : Nat) (attachElements : JSVal) (st : RenderSt),
        ¬(!attachElements.truthy || !attachElements.isArr) = true →
        ¬(!(attachElements.asArr.all fun e => e.typeof == "object")) = true →
        (∀ k, jLookup
            (updateDom topElement attachElements st).1.virtualToDomMap k
          = jLookup
            (updateDom topElement attachElements st).1.passLog.reverse k)
        ∧ (∀ kv, kv ∈ (updateDom topElement attachElements st).1.virtualToDomMap →
            kv ∈ (updateDom topElement attachElements st).1.passLog)) := by
  refine ⟨eth_registers_first, ?_⟩
  intro topElement attachElements st hv1 hv2
  have he := updateDom_passes topElement attachElements st hv1 hv2
  rw [he]
  have hev := attachLoop_evolves attachElements.asArr topElement
    (clearedState topElement attachElements st)
  obtain ⟨_, _, _, _, _, suffix, hlog, _, hmap, hmem⟩ := hev
  have hcm := clearedState_maps topElement attachElements st
  rw [hcm.2] at hlog
  simp only [List.nil_append] at hlog
  constructor
  · intro k
    have h0 := hmap k
    rw [hcm.1] at h0
    rw [h0, hlog]
    cases jLookup suffix.reverse k <;> simp [oFirst, jLookup]
  · intro kv hkv
    rcases hmem kv hkv with h | h
    · rw [hcm.1] at h
      exact absurd h (List.not_mem_nil kv)
    · rw [hlog]
      exact h

/-- Witness for C9: the paragraph element registers its entry first in
the pass trace, and after rendering it the forward table agrees with the
last registration per key of the pass trace. -/
theorem bookkeeping_contract_witness :
    (∃ rest, (elementToHtmlElement pElem demoSt).1.passLog
      = demoSt.passLog ++ (pElem.getProp "id", demoSt.nextNode) :: rest)
    ∧ (∀ k, jLookup (updateDom 0 (.varr [pElem]) demoSt).1.virtualToDomMap k
        = jLookup (updateDom 0 (.varr [pElem]) demoSt).1.passLog.reverse k) := by
  refine ⟨bookkeeping_contract.1 pElem demoSt rfl rfl, ?_⟩
  exact (bookkeeping_contract.2 0 (.varr [pElem]) demoSt
    (by decide) (by decide)).1

/-- A second well-formed element distinct from `pElem` — like every
element `createVirtualElement` builds, it has no `id` property. -/
def qElem : JSVal :=
  .vobj [("tag", .vstr "q"), ("attributes", .vobj []),
         ("children", .varr [])]

/-- Counterexample for C9's claim that the table maps each element's
identity to its corresponding DOM node: rendering two distinct elements
creates the two container children 1 and 2, but both registrations use
the key `undefined` (no element ever carries an `id`), so the forward
table collapses to a single entry pointing at the second node — node 1's
element has no entry of its own. -/
theorem bookkeeping_identity_collision :
    (updateDom 0 (.varr [pElem, qElem]) demoSt).1.virtualToDomMap
      = [(.vundef, 2)]
    ∧ (updateDom 0 (.varr [pElem, qElem]) demoSt).1.passLog
      = [(.vundef, 1), (.vundef, 2)]
    ∧ nodeChildren (updateDom 0 (.varr [pElem, qElem]) demoSt).1 0
      = [1, 2] := by
  refine ⟨?_, ?_, ?_⟩ <;>
    simp [updateDom, attachLoop, elementToHtmlElement, appendChildren,
      registeredState, midState, attrState, modifyNode, nSet, nLookup,
      State.setState, State.update, spreadMerge, objEntries, sLookup, jSet,
      applyAttr, toStr, demoSt, pElem, qElem, demoContainer, nodeChildren,
      jLookup, JSVal.sameValueZero,
      JSVal.typeof, JSVal.truthy, JSVal.isNull, JSVal.isArr, JSVal.getProp,
      JSVal.asArr]
